import Mathlib

/-!
Verification development for the EVA/DPT inter-module messaging substrate.

The definitions below are a shallow embedding of the communication core of the
repository:

* `DPT/CONTROL/base_module/base_module/src/base_module.py` (class `BaseModule`:
  `client_transmit`, `client_receive`, `server_receive`),
* `DPT/CONTROL/base_module/base_module/src/dpt_module.py` (class `DptModule`:
  `register_connection`, `client_loop`, `server_loop`, `flush_server_queue`),
* `DPT/CONTROL/broker.py` (class `broker`: `mediate`).

Bytes are modelled as `List Nat` (each entry a byte / code point).  Python
objects that can travel through the codec are modelled by `PyObj`; the payload
codec (`json.dumps` followed by `.encode("ascii")` on send, `.decode("ascii")`
followed by `json.loads` on receive) is modelled character-for-character for
the JSON fragment the modules use: `None`, booleans, integers, strings, lists,
tuples and string-keyed dicts.  Floating point payloads are outside the model.
Fallible Python operations (decoding, iteration over a non-iterable) are
modelled with `Option`/`Except`; an exception escaping a loop is an `Except`
error value.
-/

/-! ## Lexical helpers for the JSON codec (`json.loads` scanner fragment) -/

/-- Whitespace accepted between JSON tokens by `json.loads` (space, tab,
linefeed, carriage return). -/
def isWs (c : Nat) : Bool :=
  c = 32 || c = 9 || c = 10 || c = 13

/-- Skip leading JSON whitespace. -/
def skipWs : List Nat → List Nat
  | [] => []
  | c :: cs => if isWs c then skipWs cs else c :: cs

/-- ASCII decimal digit test. -/
def isDigit (c : Nat) : Bool :=
  48 ≤ c && c ≤ 57

/-- Split the longest leading run of decimal digits from the input, as the
number scanner of `json.loads` does for the integer part. -/
def takeDigits : List Nat → List Nat × List Nat
  | [] => ([], [])
  | c :: cs =>
    if isDigit c then
      let p := takeDigits cs
      (c :: p.1, p.2)
    else ([], c :: cs)

/-- Accumulate the value of a decimal digit string (most significant first). -/
def digitsToNat (ds : List Nat) : Nat :=
  ds.foldl (fun a c => a * 10 + (c - 48)) 0

/-- After the integer digits, a following `.`, `e` or `E` would make the token
a float in Python; float payloads are outside the modelled fragment, so the
parser rejects them. -/
def numCont : List Nat → Bool
  | [] => false
  | c :: _ => c = 46 || c = 101 || c = 69

/-- Most-significant-first decimal digit characters of `n` (empty for 0). -/
def digitsSpec (n : Nat) : List Nat :=
  if h : n = 0 then []
  else
    have : n / 10 < n := Nat.div_lt_self (Nat.pos_of_ne_zero h) (by omega)
    digitsSpec (n / 10) ++ [48 + n % 10]

/-- Fuelled digit printer (fuel bounds the number of divisions so that the
definition is structurally recursive and kernel-reducible). -/
def natCharsAux : Nat → Nat → List Nat → List Nat
  | 0, _, acc => acc
  | fuel + 1, n, acc =>
    if n = 0 then acc else natCharsAux fuel (n / 10) ((48 + n % 10) :: acc)

/-- Decimal representation of a natural number, as Python `repr` prints it
inside `json.dumps`. -/
def printNat (n : Nat) : List Nat :=
  if n = 0 then [48] else natCharsAux n n []

/-- Lowercase hex digit character for a value below 16 (as in Python
`\uXXXX` escapes produced by `json.dumps`). -/
def hexDig (d : Nat) : Nat :=
  if d < 10 then 48 + d else 87 + d

/-- Value of a hex digit character; accepts both cases as `json.loads` does. -/
def hexVal (c : Nat) : Option Nat :=
  if 48 ≤ c ∧ c ≤ 57 then some (c - 48)
  else if 97 ≤ c ∧ c ≤ 102 then some (c - 87)
  else if 65 ≤ c ∧ c ≤ 70 then some (c - 55)
  else none

/-- The four hex digit characters of a `\uXXXX` escape for `n < 0x10000`. -/
def hex4 (n : Nat) : List Nat :=
  [hexDig (n / 4096 % 16), hexDig (n / 256 % 16), hexDig (n / 16 % 16), hexDig (n % 16)]

/-- Read back four hex digit characters. -/
def hex4val (a b c d : Nat) : Option Nat :=
  (hexVal a).bind fun va =>
    (hexVal b).bind fun vb =>
      (hexVal c).bind fun vc =>
        (hexVal d).map fun vd => va * 4096 + vb * 256 + vc * 16 + vd

/-- A Unicode scalar value: a code point that is not a lone surrogate.  The
round-trip statements are restricted to strings of scalar values (Python
strings containing lone surrogates are not produced by ordinary payloads). -/
def scalarB (c : Nat) : Bool :=
  c < 1114112 && !(55296 ≤ c && c < 57344)

/-- Escape one character the way `json.dumps` (with its default
`ensure_ascii=True`) escapes it: `"` and `\` get a backslash escape, the
named control characters get their short escapes, all other characters
outside `0x20..0x7E` become `\uXXXX` escapes (a surrogate pair for
code points above `0xFFFF`). -/
def escapeChar (c : Nat) : List Nat :=
  if c = 34 then [92, 34]
  else if c = 92 then [92, 92]
  else if c = 8 then [92, 98]
  else if c = 9 then [92, 116]
  else if c = 10 then [92, 110]
  else if c = 12 then [92, 102]
  else if c = 13 then [92, 114]
  else if c < 32 then 92 :: 117 :: hex4 c
  else if c < 127 then [c]
  else if c < 65536 then 92 :: 117 :: hex4 c
  else
    92 :: 117 :: hex4 (55296 + (c - 65536) / 1024) ++
      (92 :: 117 :: hex4 (56320 + (c - 65536) % 1024))

/-- Body (between the quotes) of a JSON string literal for `s`. -/
def strBody (s : List Nat) : List Nat :=
  (s.map escapeChar).flatten

/-- Prepend a character to the string being accumulated by the string
scanner. -/
def consFirst (c : Nat) (o : Option (List Nat × List Nat)) :
    Option (List Nat × List Nat) :=
  o.map (fun p => (c :: p.1, p.2))

/-- Decode one backslash escape of a JSON string literal (the input starts
right after the backslash): the short escapes, `\/`, and `\uXXXX` escapes,
combining a high surrogate escape immediately followed by a low surrogate
escape into one code point, as Python does.  Returns the decoded code point
and the remaining input. -/
def unescapeStep : List Nat → Option (Nat × List Nat)
  | [] => none
  | e :: r =>
    if e = 34 then some (34, r)
    else if e = 92 then some (92, r)
    else if e = 47 then some (47, r)
    else if e = 98 then some (8, r)
    else if e = 116 then some (9, r)
    else if e = 110 then some (10, r)
    else if e = 102 then some (12, r)
    else if e = 114 then some (13, r)
    else if e = 117 then
      match r with
      | a :: b :: c2 :: d :: r2 =>
        match hex4val a b c2 d with
        | none => none
        | some n =>
          if 55296 ≤ n ∧ n < 56320 then
            match r2 with
            | 92 :: 117 :: e2 :: f2 :: g2 :: h2 :: r3 =>
              match hex4val e2 f2 g2 h2 with
              | none => none
              | some m =>
                if 56320 ≤ m ∧ m < 57344 then
                  some (65536 + (n - 55296) * 1024 + (m - 56320), r3)
                else some (n, 92 :: 117 :: e2 :: f2 :: g2 :: h2 :: r3)
            | _ => some (n, r2)
          else some (n, r2)
      | _ => none
    else none

/-- The string scanner of `json.loads`, entered after the opening quote.
Returns the decoded code points and the input after the closing quote.
Rejects raw control characters (strict mode) and unknown escapes.  The fuel
argument only makes the recursion structural; a fuel of at least the input
length never runs out, since every step consumes at least one input
character. -/
def parseStringRest : Nat → List Nat → Option (List Nat × List Nat)
  | 0, _ => none
  | fuel + 1, input =>
    match input with
    | [] => none
    | c :: rest =>
      if c = 34 then some ([], rest)
      else if c = 92 then
        match unescapeStep rest with
        | some p => consFirst p.1 (parseStringRest fuel p.2)
        | none => none
      else if c < 32 then none
      else consFirst c (parseStringRest fuel rest)

/-! ## Python payload objects and the printer side of the codec -/

/-- Python objects accepted by the payload codec of the modules: `None`,
booleans, integers, strings (as lists of code points), lists, tuples and
string-keyed dicts (as association lists in insertion order, which Python
dicts preserve).  This is the JSON-serializable fragment the DPT modules
exchange; float payloads are outside the model. -/
inductive PyObj where
  | pynone : PyObj
  | pybool (b : Bool) : PyObj
  | pyint (n : Int) : PyObj
  | pystr (s : List Nat) : PyObj
  | pylist (xs : List PyObj) : PyObj
  | pytuple (xs : List PyObj) : PyObj
  | pydict (kvs : List (List Nat × PyObj)) : PyObj

/-- Decimal representation of a Python integer (`repr`), as emitted by
`json.dumps`. -/
def printInt (n : Int) : List Nat :=
  if n < 0 then 45 :: printNat n.natAbs else printNat n.toNat

mutual

/-- `json.dumps` with its default arguments (`ensure_ascii=True`, default
separators `", "` and `": "`), restricted to the modelled fragment.  Tuples
are serialized exactly like lists, which is the behaviour of the `json`
module. -/
def printValue : PyObj → List Nat
  | .pynone => [110, 117, 108, 108]
  | .pybool true => [116, 114, 117, 101]
  | .pybool false => [102, 97, 108, 115, 101]
  | .pyint n => printInt n
  | .pystr s => 34 :: (strBody s ++ [34])
  | .pylist xs => printArr xs
  | .pytuple xs => printArr xs
  | .pydict kvs => printObj kvs

/-- A full JSON array `[x1, x2, ...]`. -/
def printArr : List PyObj → List Nat
  | [] => [91, 93]
  | x :: t => 91 :: (printValue x ++ printListRest t)

/-- The remainder of a JSON array after the first element: for each further
element a `", "` separator and the element, then the closing bracket. -/
def printListRest : List PyObj → List Nat
  | [] => [93]
  | x :: t => 44 :: 32 :: (printValue x ++ printListRest t)

/-- A full JSON object `{"k1": v1, ...}`. -/
def printObj : List (List Nat × PyObj) → List Nat
  | [] => [123, 125]
  | (k, v) :: t =>
    123 :: 34 :: (strBody k ++ 34 :: 58 :: 32 :: (printValue v ++ printKvsRest t))

/-- The remainder of a JSON object after the first member. -/
def printKvsRest : List (List Nat × PyObj) → List Nat
  | [] => [125]
  | (k, v) :: t =>
    44 :: 32 :: 34 :: (strBody k ++ 34 :: 58 :: 32 :: (printValue v ++ printKvsRest t))

end

mutual

/-- What survives a `json.dumps`/`json.loads` round trip structurally: JSON
has no tuples, so Python tuples are serialized as arrays and come back as
lists.  Everything else keeps its shape. -/
def jsonify : PyObj → PyObj
  | .pynone => .pynone
  | .pybool b => .pybool b
  | .pyint n => .pyint n
  | .pystr s => .pystr s
  | .pylist xs => .pylist (jsonifyList xs)
  | .pytuple xs => .pylist (jsonifyList xs)
  | .pydict kvs => .pydict (jsonifyKvs kvs)

/-- `jsonify` mapped over list elements. -/
def jsonifyList : List PyObj → List PyObj
  | [] => []
  | x :: t => jsonify x :: jsonifyList t

/-- `jsonify` mapped over dict values (keys are strings and unchanged). -/
def jsonifyKvs : List (List Nat × PyObj) → List (List Nat × PyObj)
  | [] => []
  | (k, v) :: t => (k, jsonify v) :: jsonifyKvs t

end

/-- Membership of a key in a list of keys. -/
def keyMem (k : List Nat) : List (List Nat) → Bool
  | [] => false
  | k2 :: t => (k == k2) || keyMem k t

/-- All keys of the association list are fresh with respect to the
accumulated keys and pairwise distinct (checked left to right). -/
def accFreshB : List (List Nat) → List (List Nat × PyObj) → Bool
  | _, [] => true
  | accKeys, (k, _) :: t => !keyMem k accKeys && accFreshB (accKeys ++ [k]) t

mutual

/-- Well-formed payloads: every string (including dict keys) consists of
Unicode scalar values and every dict has pairwise distinct keys.  Ordinary
Python payloads satisfy this; lone surrogates or duplicate keys would not
survive a Python round trip either. -/
def wfB : PyObj → Bool
  | .pynone => true
  | .pybool _ => true
  | .pyint _ => true
  | .pystr s => s.all scalarB
  | .pylist xs => wfListB xs
  | .pytuple xs => wfListB xs
  | .pydict kvs => accFreshB [] kvs && wfKvsB kvs

/-- `wfB` over list elements. -/
def wfListB : List PyObj → Bool
  | [] => true
  | x :: t => wfB x && wfListB t

/-- `wfB` over dict members (keys must be scalar strings). -/
def wfKvsB : List (List Nat × PyObj) → Bool
  | [] => true
  | (k, v) :: t => k.all scalarB && wfB v && wfKvsB t

end

mutual

/-- Fuel needed by `parseF` to parse the printed form of a value: one unit
per parser step, independent of string or digit lengths. -/
def needV : PyObj → Nat
  | .pynone => 1
  | .pybool _ => 1
  | .pyint _ => 1
  | .pystr _ => 1
  | .pylist [] => 1
  | .pylist (x :: t) => 1 + needV x + needA t
  | .pytuple [] => 1
  | .pytuple (x :: t) => 1 + needV x + needA t
  | .pydict [] => 1
  | .pydict ((_, v) :: t) => 2 + needV v + needT t

/-- Fuel needed by the array-tail loop for the remaining elements. -/
def needA : List PyObj → Nat
  | [] => 1
  | x :: t => 1 + needV x + needA t

/-- Fuel needed by the object-tail loop for the remaining members. -/
def needT : List (List Nat × PyObj) → Nat
  | [] => 1
  | (_, v) :: t => 2 + needV v + needT t

end

/-- Insert-or-update on the association list built by the object scanner:
Python dict assignment keeps the position of an existing key and replaces
its value, otherwise appends. -/
def upsert : List (List Nat × PyObj) → List Nat → PyObj → List (List Nat × PyObj)
  | [], k, v => [(k, v)]
  | (k2, v2) :: t, k, v =>
    if k2 = k then (k2, v) :: t else (k2, v2) :: upsert t k v

/-- Parser positions of the `json.loads` scanner: a value, the rest of an
array after at least one element, a member (entered after the opening quote
of its key), or the rest of an object after at least one member. -/
inductive PMode where
  | value : PMode
  | arrayTail (acc : List PyObj) : PMode
  | member (acc : List (List Nat × PyObj)) : PMode
  | membersTail (acc : List (List Nat × PyObj)) : PMode

/-- The recursive-descent scanner of `json.loads`, restricted to the
modelled fragment (`null`, `true`, `false`, integers, strings, arrays,
objects).  A number token followed by `.`, `e` or `E` would be a float and
is rejected (floats are outside the model).  The fuel bounds the descent;
`needV` fuel suffices for printed values. -/
def parseF : Nat → PMode → List Nat → Option (PyObj × List Nat)
  | 0, _, _ => none
  | fuel + 1, mode, input =>
    match mode with
    | .value =>
      match skipWs input with
      | [] => none
      | c :: cs =>
        if c = 110 then
          match cs with
          | 117 :: 108 :: 108 :: r => some (.pynone, r)
          | _ => none
        else if c = 116 then
          match cs with
          | 114 :: 117 :: 101 :: r => some (.pybool true, r)
          | _ => none
        else if c = 102 then
          match cs with
          | 97 :: 108 :: 115 :: 101 :: r => some (.pybool false, r)
          | _ => none
        else if c = 34 then
          (parseStringRest cs.length cs).map (fun p => (.pystr p.1, p.2))
        else if c = 45 then
          match takeDigits cs with
          | ([], _) => none
          | (d :: ds, r) =>
            if numCont r then none
            else some (.pyint (-(digitsToNat (d :: ds) : Int)), r)
        else if isDigit c then
          match takeDigits (c :: cs) with
          | (ds, r) =>
            if numCont r then none else some (.pyint (digitsToNat ds), r)
        else if c = 91 then
          match skipWs cs with
          | [] => none
          | c2 :: r =>
            if c2 = 93 then some (.pylist [], r)
            else
              match parseF fuel .value (c2 :: r) with
              | some (v, r2) => parseF fuel (.arrayTail [v]) r2
              | none => none
        else if c = 123 then
          match skipWs cs with
          | [] => none
          | c2 :: r =>
            if c2 = 125 then some (.pydict [], r)
            else if c2 = 34 then parseF fuel (.member []) r
            else none
        else none
    | .arrayTail acc =>
      match skipWs input with
      | [] => none
      | c :: r =>
        if c = 93 then some (.pylist acc, r)
        else if c = 44 then
          match parseF fuel .value r with
          | some (v, r2) => parseF fuel (.arrayTail (acc ++ [v])) r2
          | none => none
        else none
    | .member acc =>
      match parseStringRest input.length input with
      | none => none
      | some (k, s1) =>
        match skipWs s1 with
        | [] => none
        | c :: s2 =>
          if c = 58 then
            match parseF fuel .value s2 with
            | some (v, s3) => parseF fuel (.membersTail (upsert acc k v)) s3
            | none => none
          else none
    | .membersTail acc =>
      match skipWs input with
      | [] => none
      | c :: r =>
        if c = 125 then some (.pydict acc, r)
        else if c = 44 then
          match skipWs r with
          | [] => none
          | c2 :: r2 => if c2 = 34 then parseF fuel (.member acc) r2 else none
        else none

/-- `json.loads`: scan one value and require only whitespace after it
("Extra data" otherwise). -/
def jsonLoads (s : List Nat) : Option PyObj :=
  match parseF (s.length + 1) .value s with
  | some (v, rest) => if skipWs rest = [] then some v else none
  | none => none

/-- `json.dumps` of the modelled fragment. -/
def jsonDumps : PyObj → List Nat := printValue

/-- Python `str.encode("ascii")`: succeeds iff every code point is below
128, and then the bytes are the code points. -/
def asciiEncode (s : List Nat) : Option (List Nat) :=
  if s.all (fun c => c < 128) then some s else none

/-- Python `bytes.decode("ascii")`: succeeds iff every byte is below 128. -/
def asciiDecode (bs : List Nat) : Option (List Nat) :=
  if bs.all (fun c => c < 128) then some bs else none

/-- The encoding half of `BaseModule.client_transmit`
(base_module.py lines 149-150): `json.dumps(message)` then
`.encode("ascii")`. -/
def client_encode (message : PyObj) : Option (List Nat) :=
  asciiEncode (jsonDumps message)

/-- The decoding half of `BaseModule.server_receive`
(base_module.py lines 221-223): `.decode("ascii")` then `json.loads`. -/
def server_decode (msgBytes : List Nat) : Option PyObj :=
  (asciiDecode msgBytes).bind jsonLoads

/-- Send a payload through `client_transmit` and decode it on the server
side with `server_receive`: the codec round trip of claim C1. -/
def codec_roundtrip (message : PyObj) : Option PyObj :=
  (client_encode message).bind server_decode

/-! ## Control-plane wire vocabulary (broker.py / dpt_module.py literals) -/

/-- ASCII bytes of the literal `b"confirm_connection"`. -/
def confirmConnection : List Nat :=
  [99, 111, 110, 102, 105, 114, 109, 95, 99, 111, 110, 110, 101, 99, 116, 105, 111, 110]

/-- ASCII bytes of the literal `b"connection_confirmed"`. -/
def connectionConfirmed : List Nat :=
  [99, 111, 110, 110, 101, 99, 116, 105, 111, 110, 95, 99, 111, 110, 102, 105, 114, 109, 101, 100]

/-- ASCII bytes of the literal `b"check_connection"`. -/
def checkConnection : List Nat :=
  [99, 104, 101, 99, 107, 95, 99, 111, 110, 110, 101, 99, 116, 105, 111, 110]

/-- ASCII bytes of the literal `b"connection_alive"`. -/
def connectionAlive : List Nat :=
  [99, 111, 110, 110, 101, 99, 116, 105, 111, 110, 95, 97, 108, 105, 118, 101]

/-! ## Client receive (`BaseModule.client_receive`, base_module.py 164-197) -/

/-- A frame on a client (DEALER) socket as `client_receive` reads it:
`resp_id, msg_bytes = await sock.recv_multipart()`. -/
structure CFrame where
  respId : List Nat
  payload : List Nat
deriving DecidableEq

/-- The decoding done after the receive loop breaks
(base_module.py 194-196): `.decode("ascii")` then `json.loads`. -/
def decodeMsg (bs : List Nat) : Option PyObj :=
  (asciiDecode bs).bind jsonLoads

/-- The loop condition of base_module.py line 192:
`if resp_id == req_id or req_id is None: break`. -/
def respMatches (f : CFrame) (reqId : Option (List Nat)) : Bool :=
  match reqId with
  | none => true
  | some r => f.respId = r

/-- Outcome of a `client_receive` call.  `timeoutExc` is the
`TimeoutException(address, req_id)` of base_module.py 242-250 (raised when
`poll` returns without `POLLIN`); `blocked` means the call is still waiting
inside `poll(timeout=None)` after consuming every available frame and can
only be woken by a further frame; `notRegistered` and `decodeError` are the
`BaseModuleException` of line 183 and an escaping `json.loads`/`decode`
error respectively. -/
inductive RecvOutcome where
  | ok (msg : PyObj) : RecvOutcome
  | timeoutExc (address : String) (reqId : Option (List Nat)) : RecvOutcome
  | blocked : RecvOutcome
  | notRegistered : RecvOutcome
  | decodeError : RecvOutcome

/-- The receive loop of base_module.py 186-197 over the sequence of frames
read off the socket, ignoring arrival times: frames are consumed in order,
non-matching ones are skipped, and with a finite timeout exhausting the
list stands for the poll eventually reporting no event.  This untimed view
is adequate for the timing-independent claims; `clientReceiveTimedGo`
below refines it with per-poll timing (the code restarts the full timeout
at every poll).  Returns the outcome together with the frames still unread
on the socket. -/
def clientReceiveGo (address : String) (reqId : Option (List Nat))
    (timeout : Option Nat) : List CFrame → RecvOutcome × List CFrame
  | [] =>
    match timeout with
    | none => (.blocked, [])
    | some _ => (.timeoutExc address reqId, [])
  | f :: rest =>
    if respMatches f reqId then
      match decodeMsg f.payload with
      | some m => (.ok m, rest)
      | none => (.decodeError, rest)
    else clientReceiveGo address reqId timeout rest

/-- `BaseModule.client_receive(address, req_id, timeout)`: fails fast if the
address has no registered client socket (line 182-183), otherwise runs the
poll/receive loop. -/
def client_receive (registered : List String) (address : String)
    (reqId : Option (List Nat)) (timeout : Option Nat) (frames : List CFrame) :
    RecvOutcome × List CFrame :=
  if address ∈ registered then clientReceiveGo address reqId timeout frames
  else (.notRegistered, frames)

/-- Whether `sock.poll(timeout=timeout)` reports no event for a frame that
arrives `gap` milliseconds after the poll starts: with a finite timeout the
poll fails exactly when the frame takes longer than the timeout;
`timeout=None` waits however long it takes. -/
def pollFails (timeout : Option Nat) (gap : Nat) : Bool :=
  match timeout with
  | none => false
  | some t => t < gap

/-- Timing-refined model of the same receive loop (base_module.py 186-197):
each frame carries the delay (`gap`, in milliseconds) between the start of
the poll that receives it and its arrival.  Line 187 passes the caller's
full, undiminished `timeout` to every `poll` call, so after consuming a
non-matching frame the next poll waits the full timeout again; the timeout
therefore bounds each inter-frame gap, not the whole call.  An empty list
means no further frame ever arrives. -/
def clientReceiveTimedGo (address : String) (reqId : Option (List Nat))
    (timeout : Option Nat) :
    List (Nat × CFrame) → RecvOutcome × List (Nat × CFrame)
  | [] =>
    match timeout with
    | none => (.blocked, [])
    | some _ => (.timeoutExc address reqId, [])
  | (gap, f) :: rest =>
    if pollFails timeout gap then (.timeoutExc address reqId, (gap, f) :: rest)
    else if respMatches f reqId then
      match decodeMsg f.payload with
      | some m => (.ok m, rest)
      | none => (.decodeError, rest)
    else clientReceiveTimedGo address reqId timeout rest

/-- `BaseModule.client_receive` over the timing-refined loop. -/
def client_receive_timed (registered : List String) (address : String)
    (reqId : Option (List Nat)) (timeout : Option Nat)
    (frames : List (Nat × CFrame)) : RecvOutcome × List (Nat × CFrame) :=
  if address ∈ registered then clientReceiveTimedGo address reqId timeout frames
  else (.notRegistered, frames)

/-! ## Registration handshake (`DptModule.register_connection`,
dpt_module.py 89-125) -/

/-- The poll timeout of the registration handshake
(dpt_module.py line 108: `await new_socket.poll(timeout=100)`). -/
def handshake_timeout_ms : Nat := 100

/-- The client-side socket maps of a `DptModule`, keyed by address
(`self.client_sockets` and `self.client_hc_sockets`).  Only the key sets
matter for the registration claims. -/
structure PeerState where
  clientSockets : List String
  clientHcSockets : List String
deriving DecidableEq

/-- Python dict assignment `d[address] = socket` on the key set: one entry
per key, an existing key keeps its (single) entry. -/
def insertKey (l : List String) (a : String) : List String :=
  if a ∈ l then l else l ++ [a]

/-- `DptModule.register_connection(address)`: send `b"confirm_connection"`,
poll up to `handshake_timeout_ms`; on no reply or a reply other than
`b"connection_confirmed"` close the socket and return `False` with the maps
untouched; otherwise store the data socket and a health-check socket under
the address and return `True`.  `reply t` is the first frame the fresh
socket would deliver within `t` milliseconds (`none` when nothing arrives in
time, e.g. nothing is listening). -/
def register_connection (reply : Nat → Option (List Nat)) (address : String)
    (st : PeerState) : Bool × PeerState :=
  match reply handshake_timeout_ms with
  | none => (false, st)
  | some msg =>
    if msg = connectionConfirmed then
      (true, ⟨insertKey st.clientSockets address, insertKey st.clientHcSockets address⟩)
    else (false, st)

/-! ## Health monitor (`DptModule.client_loop`, dpt_module.py 186-203) -/

/-- The state update of one completed probe of the health-check loop body
for one address: on a reply (`POLLIN`), an interrupted address is removed
from `self.interrupted_sockets` (Python `list.remove`: first occurrence);
on a timeout, the address is appended only if not already present.
`healthStepE` below adds the error path of the loop body (a probe send
that raises). -/
def healthStep (interrupted : List String) (address : String) (probeOk : Bool) :
    List String :=
  if probeOk then
    if address ∈ interrupted then interrupted.erase address else interrupted
  else
    if address ∈ interrupted then interrupted else interrupted ++ [address]

/-- The health-check loop iterated over a sequence of probe outcomes for one
address. -/
def healthRun (interrupted : List String) (address : String)
    (probes : List Bool) : List String :=
  probes.foldl (fun st ok => healthStep st address ok) interrupted

/-- Outcome of one health probe of `client_loop` for one address, as the
transport delivers it: the peer answered within the 100 ms poll (`reply`);
the probe was sent but nothing answered (`silent`); or the
`hc_socket.send(b"check_connection", flags=zmq.DONTWAIT)` itself could not
queue the message because the pipe to the (dead) peer has reached its
high-water mark, in which case pyzmq raises `zmq.error.Again`
(`sendBlocked`). -/
inductive ProbeOutcome where
  | reply : ProbeOutcome
  | silent : ProbeOutcome
  | sendBlocked : ProbeOutcome

/-- The loop-body boolean of a completed probe (`poll` returned `POLLIN`
or not); `sendBlocked` never reaches the state update. -/
def probeBool : ProbeOutcome → Bool
  | .reply => true
  | .silent => false
  | .sendBlocked => false

/-- One iteration of the `client_loop` body for one address including its
error path: nothing in dpt_module.py 186-203 catches the `zmq.Again` of a
failed DONTWAIT send, so it escapes and kills the loop (`.error`); a
completed probe updates `interrupted_sockets` as `healthStep` does. -/
def healthStepE (interrupted : List String) (address : String) :
    ProbeOutcome → Except Unit (List String)
  | .reply => .ok (healthStep interrupted address true)
  | .silent => .ok (healthStep interrupted address false)
  | .sendBlocked => .error ()

/-- The health loop over a sequence of probe outcomes for one address; an
uncaught exception aborts the rest of the loop. -/
def healthRunE (interrupted : List String) (address : String) :
    List ProbeOutcome → Except Unit (List String)
  | [] => .ok interrupted
  | p :: rest =>
    match healthStepE interrupted address p with
    | .ok i2 => healthRunE i2 address rest
    | .error e => .error e

/-! ## Server dispatcher (`DptModule.server_loop`, dpt_module.py 209-233) -/

/-- One iteration of the dispatcher for one inbound frame
`(sender, msg_bytes)`: `b"confirm_connection"` is answered with
`b"connection_confirmed"`, `b"check_connection"` with
`b"connection_alive"`, and neither touches the queue; any other frame is
decoded and appended to `server_msg_queue`.  The decode of a malformed
frame raises (`UnicodeDecodeError`/`json.JSONDecodeError`) and nothing in
the loop catches it, so the step ends in `.error` and the loop dies.
The result carries the replies sent on the server socket and the new
queue. -/
def server_loop_step (queue : List (List Nat × PyObj)) (sender msgBytes : List Nat) :
    Except Unit (List (List Nat × List Nat) × List (List Nat × PyObj)) :=
  if msgBytes = confirmConnection then .ok ([(sender, connectionConfirmed)], queue)
  else if msgBytes = checkConnection then .ok ([(sender, connectionAlive)], queue)
  else
    match server_decode msgBytes with
    | some obj => .ok ([], queue ++ [(sender, obj)])
    | none => .error ()

/-- The dispatcher loop over a sequence of inbound frames; an uncaught
exception aborts the remainder of the loop.  (The `flush_server_socket`
call at the top of `server_loop` only discards frames that arrived before
startup and is not part of the per-frame dispatch modelled here.) -/
def server_loop_run (queue : List (List Nat × PyObj)) :
    List (List Nat × List Nat) →
    Except Unit (List (List Nat × List Nat) × List (List Nat × PyObj))
  | [] => .ok ([], queue)
  | (s, m) :: rest =>
    match server_loop_step queue s m with
    | .ok (reps, q2) =>
      (server_loop_run q2 rest).map (fun p => (reps ++ p.1, p.2))
    | .error e => .error e

/-! ## Queue flush (`DptModule.flush_server_queue`, dpt_module.py 253-261) -/

/-- Error raised by a Python operation: here only `TypeError` is needed. -/
inductive PyError where
  | typeError : PyError
deriving DecidableEq

/-- The two shapes iterated over in the repository: `range(n)` objects and
plain ints.  Python `for _ in x:` calls `iter(x)`; an int is not iterable,
so iterating it raises `TypeError` before any loop body runs. -/
inductive PyIterable where
  | pyRange (n : Nat) : PyIterable
  | pyInt (n : Nat) : PyIterable

/-- Python iteration protocol on the shapes above. -/
def pyForIn : PyIterable → Except PyError (List Unit)
  | .pyRange n => .ok (List.replicate n ())
  | .pyInt _ => .error .typeError

/-- The loop body of `flush_server_queue`: one `get_nowait()` per iteration;
`asyncio.QueueEmpty` is caught by the surrounding `try` and ends the flush
normally. -/
def flushLoop (queue : List (List Nat × PyObj)) : List Unit → List (List Nat × PyObj)
  | [] => queue
  | _ :: iters =>
    match queue with
    | [] => []
    | _ :: qt => flushLoop qt iters

/-- `DptModule.flush_server_queue` as written (dpt_module.py 257-261):
`for _ in self.server_msg_queue.qsize(): self.server_msg_queue.get_nowait()`
inside `try ... except asyncio.QueueEmpty`.  `qsize()` returns an int, so
the `for` raises `TypeError`, which the `except` clause does not catch. -/
def flush_server_queue (queue : List (List Nat × PyObj)) :
    Except PyError (List (List Nat × PyObj)) :=
  (pyForIn (.pyInt queue.length)).map (flushLoop queue)

/-- What the docstring of `flush_server_queue` (and the spec's `drain()`)
describe, and what `for _ in range(qsize())` would do: pop and discard
everything currently queued. -/
def flush_server_queue_intended (queue : List (List Nat × PyObj)) :
    Except PyError (List (List Nat × PyObj)) :=
  (pyForIn (.pyRange queue.length)).map (flushLoop queue)

/-! ## Relay (`broker.mediate`, broker.py 27-42) -/

/-- A four-part frame as the broker's ROUTER socket delivers it:
`sender, address, _, msg = self.socket.recv_multipart(copy=True)`. -/
structure RelayFrame where
  sender : List Nat
  dest : List Nat
  delim : List Nat
  payload : List Nat
deriving DecidableEq

/-- One iteration of `broker.mediate`: decode both address parts as ASCII
for the log line (an undecodable part raises `UnicodeDecodeError`, which
nothing but `KeyboardInterrupt` is caught for, killing the loop), then send
exactly one frame `[address, sender, b"", msg]` with the payload bytes
untouched. -/
def mediate_step (f : RelayFrame) : Option RelayFrame :=
  match asciiDecode f.sender, asciiDecode f.dest with
  | some _, some _ => some ⟨f.dest, f.sender, [], f.payload⟩
  | _, _ => none

/-! ## Basic lemmas: digits, hex, scanner helpers -/

theorem hexVal_hexDig : ∀ d < 16, hexVal (hexDig d) = some d := by decide

theorem hex4val_hex4 (n : Nat) (h : n < 65536) :
    hex4val (hexDig (n / 4096 % 16)) (hexDig (n / 256 % 16))
      (hexDig (n / 16 % 16)) (hexDig (n % 16)) = some n := by
  have h1 := hexVal_hexDig (n / 4096 % 16) (Nat.mod_lt _ (by omega))
  have h2 := hexVal_hexDig (n / 256 % 16) (Nat.mod_lt _ (by omega))
  have h3 := hexVal_hexDig (n / 16 % 16) (Nat.mod_lt _ (by omega))
  have h4 := hexVal_hexDig (n % 16) (Nat.mod_lt _ (by omega))
  unfold hex4val
  rw [h1, h2, h3, h4]
  simp only [Option.some_bind, Option.map_some', Option.some.injEq]
  omega

theorem digitsSpec_zero : digitsSpec 0 = [] := by
  rw [digitsSpec]; simp

theorem digitsSpec_succ (n : Nat) (h : n ≠ 0) :
    digitsSpec n = digitsSpec (n / 10) ++ [48 + n % 10] := by
  rw [digitsSpec]; simp [h]

theorem natCharsAux_nil : ∀ f acc, natCharsAux f 0 acc = acc := by
  intro f acc; cases f <;> simp [natCharsAux]

theorem natCharsAux_eq_digitsSpec :
    ∀ f n acc, n ≤ f → natCharsAux f n acc = digitsSpec n ++ acc := by
  intro f
  induction f with
  | zero =>
    intro n acc h
    have hn : n = 0 := by omega
    subst hn
    simp [natCharsAux, digitsSpec_zero]
  | succ f ih =>
    intro n acc h
    by_cases hn : n = 0
    · subst hn; simp [natCharsAux, digitsSpec_zero]
    · have hdiv : n / 10 ≤ f := by
        have hlt : n / 10 < n := Nat.div_lt_self (Nat.pos_of_ne_zero hn) (by omega)
        omega
      rw [natCharsAux, if_neg hn, ih _ _ hdiv, digitsSpec_succ n hn]
      simp

theorem printNat_eq (n : Nat) :
    printNat n = if n = 0 then [48] else digitsSpec n := by
  unfold printNat
  by_cases hn : n = 0
  · simp [hn]
  · rw [if_neg hn, if_neg hn, natCharsAux_eq_digitsSpec n n [] le_rfl]
    simp

theorem digitsSpec_digits (n : Nat) : ∀ c ∈ digitsSpec n, 48 ≤ c ∧ c ≤ 57 := by
  induction n using Nat.strong_induction_on with
  | _ n ih =>
    by_cases hn : n = 0
    · subst hn; simp [digitsSpec_zero]
    · rw [digitsSpec_succ n hn]
      intro c hc
      rcases List.mem_append.1 hc with hc | hc
      · exact ih (n / 10) (Nat.div_lt_self (Nat.pos_of_ne_zero hn) (by omega)) c hc
      · have : c = 48 + n % 10 := by simpa using hc
        have := Nat.mod_lt n (y := 10) (by omega)
        omega

theorem digitsSpec_ne_nil (n : Nat) (h : n ≠ 0) : digitsSpec n ≠ [] := by
  rw [digitsSpec_succ n h]
  simp

theorem foldl_digitsSpec (n : Nat) :
    ∀ a, List.foldl (fun a c => a * 10 + (c - 48)) a (digitsSpec n) =
      if n = 0 then a else a * 10 ^ (digitsSpec n).length + n := by
  induction n using Nat.strong_induction_on with
  | _ n ih =>
    intro a
    by_cases hn : n = 0
    · simp [hn, digitsSpec_zero]
    · rw [if_neg hn, digitsSpec_succ n hn, List.foldl_append]
      by_cases hq : n / 10 = 0
      · have hlt : n < 10 := by omega
        simp [hq, digitsSpec_zero, digitsSpec_succ n hn]
        omega
      · have hdiv : n / 10 < n := Nat.div_lt_self (Nat.pos_of_ne_zero hn) (by omega)
        rw [ih (n / 10) hdiv a, if_neg hq]
        simp only [List.foldl_cons, List.foldl_nil, digitsSpec_succ n hn,
          List.length_append, List.length_singleton]
        have hdm : 10 * (n / 10) + n % 10 = n := Nat.div_add_mod n 10
        set e := 10 ^ (digitsSpec (n / 10)).length with he
        calc (a * e + n / 10) * 10 + (48 + n % 10 - 48)
            = a * (e * 10) + (10 * (n / 10) + n % 10) := by
              have : 48 + n % 10 - 48 = n % 10 := by omega
              rw [this]; ring
        _ = a * 10 ^ ((digitsSpec (n / 10)).length + 1) + n := by
              rw [hdm, pow_succ]

theorem digitsToNat_digitsSpec (n : Nat) (h : n ≠ 0) :
    digitsToNat (digitsSpec n) = n := by
  unfold digitsToNat
  rw [foldl_digitsSpec n 0, if_neg h]
  simp

theorem digitsToNat_printNat (n : Nat) : digitsToNat (printNat n) = n := by
  rw [printNat_eq]
  by_cases hn : n = 0
  · simp [hn, digitsToNat]
  · rw [if_neg hn]
    exact digitsToNat_digitsSpec n hn

/-- Head of the remaining input is not a digit (so the digit scanner stops
exactly at the printed digits). -/
def headNotDigit : List Nat → Bool
  | [] => true
  | c :: _ => !(isDigit c)

theorem takeDigits_split (ds rest : List Nat) (hds : ∀ c ∈ ds, isDigit c = true)
    (hr : headNotDigit rest = true) : takeDigits (ds ++ rest) = (ds, rest) := by
  induction ds with
  | nil =>
    cases rest with
    | nil => rfl
    | cons c t =>
      have : isDigit c = false := by
        simpa [headNotDigit] using hr
      simp [takeDigits, this]
  | cons d ds ih =>
    have hd : isDigit d = true := hds d (by simp)
    have hrec := ih (fun c hc => hds c (by simp [hc]))
    simp only [List.cons_append, takeDigits, hd, if_pos, List.append_eq, hrec]

/-- Shape of the suffix a printed value is followed by inside a printed
document: nothing, or a separator or closing bracket. -/
def restOk : List Nat → Bool
  | [] => true
  | c :: _ => c = 44 || c = 93 || c = 125

theorem restOk_headNotDigit (rest : List Nat) (h : restOk rest = true) :
    headNotDigit rest = true := by
  cases rest with
  | nil => rfl
  | cons c t =>
    have hc : (c = 44 ∨ c = 93) ∨ c = 125 := by simpa [restOk] using h
    simp [headNotDigit, isDigit]
    omega

theorem restOk_numCont (rest : List Nat) (h : restOk rest = true) :
    numCont rest = false := by
  cases rest with
  | nil => rfl
  | cons c t =>
    have hc : (c = 44 ∨ c = 93) ∨ c = 125 := by simpa [restOk] using h
    simp [numCont]
    omega

theorem skipWs_not_ws {c : Nat} (cs : List Nat) (h : isWs c = false) :
    skipWs (c :: cs) = c :: cs := by
  simp [skipWs, h]

theorem skipWs_ws_prefix (pre : List Nat) (s : List Nat)
    (h : ∀ c ∈ pre, isWs c = true) : skipWs (pre ++ s) = skipWs s := by
  induction pre with
  | nil => rfl
  | cons c t ih =>
    have hc : isWs c = true := h c (by simp)
    simp only [List.cons_append, skipWs, hc, if_pos]
    exact ih (fun x hx => h x (by simp [hx]))

theorem strBody_nil : strBody [] = [] := by simp [strBody]

theorem strBody_cons (c : Nat) (s : List Nat) :
    strBody (c :: s) = escapeChar c ++ strBody s := by simp [strBody]

theorem parseStringRest_step_esc (g : Nat) (tail : List Nat) (cp : Nat)
    (r : List Nat) (h : unescapeStep tail = some (cp, r)) :
    parseStringRest (g + 1) (92 :: tail) = consFirst cp (parseStringRest g r) := by
  simp [parseStringRest, h]

theorem parseStringRest_step_plain (g : Nat) (c : Nat) (rem : List Nat)
    (h1 : ¬c = 34) (h2 : ¬c = 92) (h3 : ¬c < 32) :
    parseStringRest (g + 1) (c :: rem) = consFirst c (parseStringRest g rem) := by
  simp only [parseStringRest]
  rw [if_neg h1, if_neg h2, if_neg h3]

theorem unescapeStep_quote (r : List Nat) : unescapeStep (34 :: r) = some (34, r) := by
  simp [unescapeStep]

theorem unescapeStep_backslash (r : List Nat) :
    unescapeStep (92 :: r) = some (92, r) := by
  simp [unescapeStep]

theorem unescapeStep_bs (r : List Nat) : unescapeStep (98 :: r) = some (8, r) := by
  simp [unescapeStep]

theorem unescapeStep_tab (r : List Nat) : unescapeStep (116 :: r) = some (9, r) := by
  simp [unescapeStep]

theorem unescapeStep_nl (r : List Nat) : unescapeStep (110 :: r) = some (10, r) := by
  simp [unescapeStep]

theorem unescapeStep_ff (r : List Nat) : unescapeStep (102 :: r) = some (12, r) := by
  simp [unescapeStep]

theorem unescapeStep_cr (r : List Nat) : unescapeStep (114 :: r) = some (13, r) := by
  simp [unescapeStep]

theorem unescapeStep_u (a b c2 d : Nat) (r2 : List Nat) (n : Nat)
    (hhex : hex4val a b c2 d = some n) (hns : ¬(55296 ≤ n ∧ n < 56320)) :
    unescapeStep (117 :: a :: b :: c2 :: d :: r2) = some (n, r2) := by
  simp [unescapeStep, hhex, hns]

theorem unescapeStep_uu (a b c2 d e2 f2 g2 h2 : Nat) (r3 : List Nat) (n m : Nat)
    (hhex1 : hex4val a b c2 d = some n) (hhex2 : hex4val e2 f2 g2 h2 = some m)
    (hn1 : 55296 ≤ n) (hn2 : n < 56320) (hm1 : 56320 ≤ m) (hm2 : m < 57344) :
    unescapeStep (117 :: a :: b :: c2 :: d :: 92 :: 117 :: e2 :: f2 :: g2 :: h2 :: r3) =
      some (65536 + (n - 55296) * 1024 + (m - 56320), r3) := by
  have hn : 55296 ≤ n ∧ n < 56320 := ⟨hn1, hn2⟩
  have hm : 56320 ≤ m ∧ m < 57344 := ⟨hm1, hm2⟩
  simp [unescapeStep, hhex1, hhex2, hn, hm]

theorem unescapeStep_unicode (n : Nat) (rem : List Nat) (hlt : n < 65536)
    (hns : ¬(55296 ≤ n ∧ n < 56320)) :
    unescapeStep (117 :: hex4 n ++ rem) = some (n, rem) := by
  have h := unescapeStep_u (hexDig (n / 4096 % 16)) (hexDig (n / 256 % 16))
    (hexDig (n / 16 % 16)) (hexDig (n % 16)) rem n (hex4val_hex4 n hlt) hns
  simpa [hex4] using h

theorem unescapeStep_astral (cp : Nat) (rem : List Nat) (hge : 65536 ≤ cp)
    (hlt : cp < 1114112) :
    unescapeStep (117 :: hex4 (55296 + (cp - 65536) / 1024) ++
        (92 :: 117 :: hex4 (56320 + (cp - 65536) % 1024)) ++ rem) =
      some (cp, rem) := by
  have hhi := hex4val_hex4 (55296 + (cp - 65536) / 1024) (by omega)
  have hlo := hex4val_hex4 (56320 + (cp - 65536) % 1024) (by omega)
  have h := unescapeStep_uu _ _ _ _ _ _ _ _ rem _ _ hhi hlo
    (by omega) (by omega) (by omega) (by omega)
  have hval : 65536 + (55296 + (cp - 65536) / 1024 - 55296) * 1024 +
      (56320 + (cp - 65536) % 1024 - 56320) = cp := by omega
  rw [hval] at h
  simpa [hex4] using h

theorem parseStringRest_strBody :
    ∀ (s : List Nat) (fuel : Nat) (rest : List Nat),
      (strBody s ++ 34 :: rest).length ≤ fuel →
      (∀ c ∈ s, scalarB c = true) →
      parseStringRest fuel (strBody s ++ 34 :: rest) = some (s, rest) := by
  intro s
  induction s with
  | nil =>
    intro fuel rest hlen hsc
    rw [strBody_nil]
    obtain ⟨g, rfl⟩ : ∃ g, fuel = g + 1 := by
      cases fuel
      · exfalso; simp at hlen
      · exact ⟨_, rfl⟩
    simp [parseStringRest]
  | cons c s2 ih =>
    intro fuel rest hlen hsc
    have hc := hsc c (by simp)
    have hcs : ∀ x ∈ s2, scalarB x = true := fun x hx => hsc x (by simp [hx])
    have hA : c < 1114112 := by
      simp [scalarB, Bool.and_eq_true] at hc
      exact hc.1
    have hB : 55296 ≤ c → 57344 ≤ c := by
      intro hge
      simp [scalarB, Bool.and_eq_true] at hc
      omega
    rw [strBody_cons, List.append_assoc]
    obtain ⟨g, rfl⟩ : ∃ g, fuel = g + 1 := by
      cases fuel
      · exfalso
        rw [strBody_cons] at hlen
        simp [List.length_append] at hlen
      · exact ⟨_, rfl⟩
    have hlen2 : (strBody s2 ++ 34 :: rest).length + (escapeChar c).length ≤ g + 1 := by
      rw [strBody_cons] at hlen
      simp [List.length_append] at hlen ⊢
      omega
    by_cases h1 : c = 34
    · subst h1
      have hesc : escapeChar 34 = [92, 34] := by norm_num [escapeChar]
      rw [hesc] at hlen2 ⊢
      have hrec := ih g rest (by simp at hlen2 ⊢; omega) hcs
      simp only [List.cons_append, List.nil_append]
      rw [parseStringRest_step_esc g _ _ _ (unescapeStep_quote _), hrec]
      simp [consFirst]
    · by_cases h2 : c = 92
      · subst h2
        have hesc : escapeChar 92 = [92, 92] := by norm_num [escapeChar]
        rw [hesc] at hlen2 ⊢
        have hrec := ih g rest (by simp at hlen2 ⊢; omega) hcs
        simp only [List.cons_append, List.nil_append]
        rw [parseStringRest_step_esc g _ _ _ (unescapeStep_backslash _), hrec]
        simp [consFirst]
      · by_cases h3 : c = 8
        · subst h3
          have hesc : escapeChar 8 = [92, 98] := by norm_num [escapeChar]
          rw [hesc] at hlen2 ⊢
          have hrec := ih g rest (by simp at hlen2 ⊢; omega) hcs
          simp only [List.cons_append, List.nil_append]
          rw [parseStringRest_step_esc g _ _ _ (unescapeStep_bs _), hrec]
          simp [consFirst]
        · by_cases h4 : c = 9
          · subst h4
            have hesc : escapeChar 9 = [92, 116] := by norm_num [escapeChar]
            rw [hesc] at hlen2 ⊢
            have hrec := ih g rest (by simp at hlen2 ⊢; omega) hcs
            simp only [List.cons_append, List.nil_append]
            rw [parseStringRest_step_esc g _ _ _ (unescapeStep_tab _), hrec]
            simp [consFirst]
          · by_cases h5 : c = 10
            · subst h5
              have hesc : escapeChar 10 = [92, 110] := by norm_num [escapeChar]
              rw [hesc] at hlen2 ⊢
              have hrec := ih g rest (by simp at hlen2 ⊢; omega) hcs
              simp only [List.cons_append, List.nil_append]
              rw [parseStringRest_step_esc g _ _ _ (unescapeStep_nl _), hrec]
              simp [consFirst]
            · by_cases h6 : c = 12
              · subst h6
                have hesc : escapeChar 12 = [92, 102] := by norm_num [escapeChar]
                rw [hesc] at hlen2 ⊢
                have hrec := ih g rest (by simp at hlen2 ⊢; omega) hcs
                simp only [List.cons_append, List.nil_append]
                rw [parseStringRest_step_esc g _ _ _ (unescapeStep_ff _), hrec]
                simp [consFirst]
              · by_cases h7 : c = 13
                · subst h7
                  have hesc : escapeChar 13 = [92, 114] := by norm_num [escapeChar]
                  rw [hesc] at hlen2 ⊢
                  have hrec := ih g rest (by simp at hlen2 ⊢; omega) hcs
                  simp only [List.cons_append, List.nil_append]
                  rw [parseStringRest_step_esc g _ _ _ (unescapeStep_cr _), hrec]
                  simp [consFirst]
                · by_cases h8 : c < 32
                  · have hesc : escapeChar c = 92 :: 117 :: hex4 c := by
                      unfold escapeChar
                      rw [if_neg h1, if_neg h2, if_neg h3, if_neg h4, if_neg h5,
                        if_neg h6, if_neg h7, if_pos h8]
                    rw [hesc] at hlen2 ⊢
                    have hrec := ih g rest (by simp [hex4] at hlen2 ⊢; omega) hcs
                    have hstep := unescapeStep_unicode c (strBody s2 ++ 34 :: rest)
                      (by omega) (by omega)
                    rw [show (92 :: 117 :: hex4 c) ++ (strBody s2 ++ 34 :: rest) =
                      92 :: (117 :: hex4 c ++ (strBody s2 ++ 34 :: rest)) by simp]
                    rw [parseStringRest_step_esc g _ _ _ hstep, hrec]
                    simp [consFirst]
                  · by_cases h9 : c < 127
                    · have hesc : escapeChar c = [c] := by
                        unfold escapeChar
                        rw [if_neg h1, if_neg h2, if_neg h3, if_neg h4, if_neg h5,
                          if_neg h6, if_neg h7, if_neg h8, if_pos h9]
                      rw [hesc] at hlen2 ⊢
                      have hrec := ih g rest (by simp at hlen2 ⊢; omega) hcs
                      simp only [List.cons_append, List.nil_append]
                      rw [parseStringRest_step_plain g c _ h1 h2 h8, hrec]
                      simp [consFirst]
                    · by_cases h10 : c < 65536
                      · have hesc : escapeChar c = 92 :: 117 :: hex4 c := by
                          unfold escapeChar
                          rw [if_neg h1, if_neg h2, if_neg h3, if_neg h4, if_neg h5,
                            if_neg h6, if_neg h7, if_neg h8, if_neg h9, if_pos h10]
                        rw [hesc] at hlen2 ⊢
                        have hrec := ih g rest (by simp [hex4] at hlen2 ⊢; omega) hcs
                        have hns : ¬(55296 ≤ c ∧ c < 56320) := by
                          intro hand
                          exact absurd (hB hand.1) (by omega)
                        have hstep := unescapeStep_unicode c (strBody s2 ++ 34 :: rest)
                          h10 hns
                        rw [show (92 :: 117 :: hex4 c) ++ (strBody s2 ++ 34 :: rest) =
                          92 :: (117 :: hex4 c ++ (strBody s2 ++ 34 :: rest)) by simp]
                        rw [parseStringRest_step_esc g _ _ _ hstep, hrec]
                        simp [consFirst]
                      · have hesc : escapeChar c =
                            92 :: 117 :: hex4 (55296 + (c - 65536) / 1024) ++
                              (92 :: 117 :: hex4 (56320 + (c - 65536) % 1024)) := by
                          unfold escapeChar
                          rw [if_neg h1, if_neg h2, if_neg h3, if_neg h4, if_neg h5,
                            if_neg h6, if_neg h7, if_neg h8, if_neg h9, if_neg h10]
                        rw [hesc] at hlen2 ⊢
                        have hrec := ih g rest (by simp [hex4] at hlen2 ⊢; omega) hcs
                        have hstep := unescapeStep_astral c (strBody s2 ++ 34 :: rest)
                          (by omega) hA
                        rw [show (92 :: 117 :: hex4 (55296 + (c - 65536) / 1024) ++
                              (92 :: 117 :: hex4 (56320 + (c - 65536) % 1024))) ++
                              (strBody s2 ++ 34 :: rest) =
                            92 :: (117 :: hex4 (55296 + (c - 65536) / 1024) ++
                              (92 :: 117 :: hex4 (56320 + (c - 65536) % 1024)) ++
                              (strBody s2 ++ 34 :: rest)) by simp]
                        rw [parseStringRest_step_esc g _ _ _ hstep, hrec]
                        simp [consFirst]

/-! ## Shape lemmas for printed values -/

theorem printNat_digits (n : Nat) : ∀ c ∈ printNat n, isDigit c = true := by
  rw [printNat_eq]
  by_cases hn : n = 0
  · simp [hn, isDigit]
  · rw [if_neg hn]
    intro c hc
    have := digitsSpec_digits n c hc
    simp [isDigit]
    omega

theorem printNat_cons (n : Nat) :
    ∃ d t, printNat n = d :: t ∧ 48 ≤ d ∧ d ≤ 57 := by
  rw [printNat_eq]
  by_cases hn : n = 0
  · exact ⟨48, [], by simp [hn], by omega, by omega⟩
  · rw [if_neg hn]
    obtain ⟨d, t, hdt⟩ := List.exists_cons_of_ne_nil (digitsSpec_ne_nil n hn)
    have hd := digitsSpec_digits n d (by rw [hdt]; simp)
    exact ⟨d, t, hdt, hd.1, hd.2⟩

theorem printValue_head (v : PyObj) :
    ∃ c t, printValue v = c :: t ∧ isWs c = false ∧ c ≠ 93 ∧ c ≠ 125 := by
  cases v with
  | pynone =>
    exact ⟨110, [117, 108, 108], by simp [printValue], by decide, by decide, by decide⟩
  | pybool b =>
    cases b with
    | true =>
      exact ⟨116, [114, 117, 101], by simp [printValue], by decide, by decide, by decide⟩
    | false =>
      exact ⟨102, [97, 108, 115, 101], by simp [printValue], by decide, by decide, by decide⟩
  | pyint n =>
    by_cases hn : n < 0
    · refine ⟨45, printNat n.natAbs, ?_, by decide, by decide, by decide⟩
      simp [printValue, printInt, hn]
    · obtain ⟨d, t, hdt, hd1, hd2⟩ := printNat_cons n.toNat
      refine ⟨d, t, ?_, ?_, by omega, by omega⟩
      · simp [printValue, printInt, hn, hdt]
      · simp [isWs]; omega
  | pystr s =>
    exact ⟨34, strBody s ++ [34], by simp [printValue], by decide, by decide, by decide⟩
  | pylist xs =>
    cases xs with
    | nil =>
      exact ⟨91, [93], by simp [printValue, printArr], by decide, by decide, by decide⟩
    | cons x t =>
      exact ⟨91, printValue x ++ printListRest t, by simp [printValue, printArr],
        by decide, by decide, by decide⟩
  | pytuple xs =>
    cases xs with
    | nil =>
      exact ⟨91, [93], by simp [printValue, printArr], by decide, by decide, by decide⟩
    | cons x t =>
      exact ⟨91, printValue x ++ printListRest t, by simp [printValue, printArr],
        by decide, by decide, by decide⟩
  | pydict kvs =>
    cases kvs with
    | nil =>
      exact ⟨123, [125], by simp [printValue, printObj], by decide, by decide, by decide⟩
    | cons kv t =>
      obtain ⟨k, v⟩ := kv
      exact ⟨123, 34 :: (strBody k ++ 34 :: 58 :: 32 :: (printValue v ++ printKvsRest t)),
        by simp [printValue, printObj], by decide, by decide, by decide⟩

theorem skipWs_printValue (v : PyObj) (rest : List Nat) :
    skipWs (printValue v ++ rest) = printValue v ++ rest := by
  obtain ⟨c, t, hct, hws, _, _⟩ := printValue_head v
  rw [hct, List.cons_append, skipWs_not_ws _ hws]

theorem restOk_printListRest (t : List PyObj) (rest : List Nat) :
    restOk (printListRest t ++ rest) = true := by
  cases t with
  | nil => simp [printListRest, restOk]
  | cons x t2 => simp [printListRest, restOk]

theorem restOk_printKvsRest (t : List (List Nat × PyObj)) (rest : List Nat) :
    restOk (printKvsRest t ++ rest) = true := by
  cases t with
  | nil => simp [printKvsRest, restOk]
  | cons kv t2 =>
    obtain ⟨k, v⟩ := kv
    simp [printKvsRest, restOk]

theorem needV_pos (v : PyObj) : 1 ≤ needV v := by
  cases v with
  | pynone => simp [needV]
  | pybool b => simp [needV]
  | pyint n => simp [needV]
  | pystr s => simp [needV]
  | pylist xs => cases xs <;> simp [needV] <;> omega
  | pytuple xs => cases xs <;> simp [needV] <;> omega
  | pydict kvs =>
    cases kvs with
    | nil => simp [needV]
    | cons kv t => obtain ⟨k, v2⟩ := kv; simp [needV]; omega

theorem needA_pos (xs : List PyObj) : 1 ≤ needA xs := by
  cases xs <;> simp [needA] <;> omega

theorem needT_pos (t : List (List Nat × PyObj)) : 1 ≤ needT t := by
  cases t with
  | nil => simp [needT]
  | cons kv t2 => obtain ⟨k, v⟩ := kv; simp [needT]; omega

theorem upsert_fresh (acc : List (List Nat × PyObj)) (k : List Nat) (v : PyObj)
    (h : keyMem k (acc.map Prod.fst) = false) : upsert acc k v = acc ++ [(k, v)] := by
  induction acc with
  | nil => simp [upsert]
  | cons kv t ih =>
    obtain ⟨k2, v2⟩ := kv
    simp only [List.map_cons, keyMem, Bool.or_eq_false_iff, beq_eq_false_iff_ne,
      ne_eq] at h
    have hne : ¬(k2 = k) := fun he => h.1 he.symm
    simp only [upsert, if_neg hne, ih h.2, List.cons_append]

/-! ## One-step reductions of the `parseF` scanner -/

theorem skipWs_idem (l : List Nat) : skipWs (skipWs l) = skipWs l := by
  induction l with
  | nil => rfl
  | cons c cs ih =>
    by_cases h : isWs c = true
    · simp [skipWs, h, ih]
    · have h2 : isWs c = false := by simpa using h
      simp [skipWs, h2]

theorem parseF_value_skip (fuel : Nat) (input : List Nat) :
    parseF fuel .value input = parseF fuel .value (skipWs input) := by
  cases fuel with
  | zero => rfl
  | succ g => simp only [parseF, skipWs_idem]

theorem parseF_null (g : Nat) (r : List Nat) :
    parseF (g + 1) .value (110 :: 117 :: 108 :: 108 :: r) = some (.pynone, r) := by
  simp [parseF, skipWs, isWs]

theorem parseF_true (g : Nat) (r : List Nat) :
    parseF (g + 1) .value (116 :: 114 :: 117 :: 101 :: r) = some (.pybool true, r) := by
  simp [parseF, skipWs, isWs]

theorem parseF_false (g : Nat) (r : List Nat) :
    parseF (g + 1) .value (102 :: 97 :: 108 :: 115 :: 101 :: r) =
      some (.pybool false, r) := by
  simp [parseF, skipWs, isWs]

theorem parseF_string (g : Nat) (cs : List Nat) :
    parseF (g + 1) .value (34 :: cs) =
      (parseStringRest cs.length cs).map (fun p => (.pystr p.1, p.2)) := by
  simp [parseF, skipWs, isWs]

theorem parseF_neg_int (g : Nat) (cs : List Nat) (d : Nat) (ds r : List Nat)
    (h : takeDigits cs = (d :: ds, r)) (hn : numCont r = false) :
    parseF (g + 1) .value (45 :: cs) =
      some (.pyint (-(digitsToNat (d :: ds) : Int)), r) := by
  simp [parseF, skipWs, isWs, h, hn]

theorem parseF_nonneg_int (g : Nat) (c : Nat) (cs : List Nat) (ds r : List Nat)
    (hc1 : 48 ≤ c) (hc2 : c ≤ 57) (h : takeDigits (c :: cs) = (ds, r))
    (hn : numCont r = false) :
    parseF (g + 1) .value (c :: cs) = some (.pyint (digitsToNat ds), r) := by
  have hws : isWs c = false := by simp [isWs]; omega
  have hd : isDigit c = true := by simp [isDigit]; omega
  have h110 : ¬(c = 110) := by omega
  have h116 : ¬(c = 116) := by omega
  have h102 : ¬(c = 102) := by omega
  have h34 : ¬(c = 34) := by omega
  have h45 : ¬(c = 45) := by omega
  simp only [parseF, skipWs_not_ws _ hws]
  rw [if_neg h110, if_neg h116, if_neg h102, if_neg h34, if_neg h45, if_pos hd, h]
  simp [hn]

theorem parseF_empty_array (g : Nat) (cs r : List Nat)
    (hskip : skipWs cs = 93 :: r) :
    parseF (g + 1) .value (91 :: cs) = some (.pylist [], r) := by
  simp [parseF, skipWs, isWs, isDigit, hskip]

theorem parseF_array (g : Nat) (cs : List Nat) (c2 : Nat) (r r2 : List Nat)
    (v : PyObj) (hskip : skipWs cs = c2 :: r) (hc2 : ¬(c2 = 93))
    (hv : parseF g .value (c2 :: r) = some (v, r2)) :
    parseF (g + 1) .value (91 :: cs) = parseF g (.arrayTail [v]) r2 := by
  simp [parseF, skipWs, isWs, isDigit, hskip, hc2, hv]

theorem parseF_empty_obj (g : Nat) (cs r : List Nat)
    (hskip : skipWs cs = 125 :: r) :
    parseF (g + 1) .value (123 :: cs) = some (.pydict [], r) := by
  simp [parseF, skipWs, isWs, isDigit, hskip]

theorem parseF_obj (g : Nat) (cs r : List Nat) (hskip : skipWs cs = 34 :: r) :
    parseF (g + 1) .value (123 :: cs) = parseF g (.member []) r := by
  simp [parseF, skipWs, isWs, isDigit, hskip]

theorem parseF_arrayTail_close (g : Nat) (acc : List PyObj) (r : List Nat) :
    parseF (g + 1) (.arrayTail acc) (93 :: r) = some (.pylist acc, r) := by
  simp [parseF, skipWs, isWs]

theorem parseF_arrayTail_comma (g : Nat) (acc : List PyObj) (r r2 : List Nat)
    (v : PyObj) (hv : parseF g .value r = some (v, r2)) :
    parseF (g + 1) (.arrayTail acc) (44 :: r) =
      parseF g (.arrayTail (acc ++ [v])) r2 := by
  simp [parseF, skipWs, isWs, hv]

theorem parseF_member_step (g : Nat) (acc : List (List Nat × PyObj))
    (input : List Nat) (k : List Nat) (s1 s2 s3 : List Nat) (v : PyObj)
    (hps : parseStringRest input.length input = some (k, s1))
    (hskip : skipWs s1 = 58 :: s2)
    (hv : parseF g .value s2 = some (v, s3)) :
    parseF (g + 1) (.member acc) input =
      parseF g (.membersTail (upsert acc k v)) s3 := by
  simp [parseF, hps, hskip, hv]

theorem parseF_membersTail_close (g : Nat) (acc : List (List Nat × PyObj))
    (r : List Nat) :
    parseF (g + 1) (.membersTail acc) (125 :: r) = some (.pydict acc, r) := by
  simp [parseF, skipWs, isWs]

theorem parseF_membersTail_comma (g : Nat) (acc : List (List Nat × PyObj))
    (r r2 : List Nat) (hskip : skipWs r = 34 :: r2) :
    parseF (g + 1) (.membersTail acc) (44 :: r) = parseF g (.member acc) r2 := by
  simp [parseF, skipWs, isWs, hskip]

/-! ## The scanner inverts the printer -/

theorem parseF_print :
    ∀ fuel : Nat,
      (∀ v pre rest, wfB v = true → needV v ≤ fuel →
        (∀ c ∈ pre, isWs c = true) → restOk rest = true →
        parseF fuel .value (pre ++ (printValue v ++ rest)) = some (jsonify v, rest)) ∧
      (∀ xs acc rest, wfListB xs = true → needA xs ≤ fuel → restOk rest = true →
        parseF fuel (.arrayTail acc) (printListRest xs ++ rest) =
          some (.pylist (acc ++ jsonifyList xs), rest)) ∧
      (∀ k v t acc rest, (∀ c ∈ k, scalarB c = true) → wfB v = true → wfKvsB t = true →
        accFreshB (acc.map Prod.fst) ((k, v) :: t) = true →
        1 + needV v + needT t ≤ fuel → restOk rest = true →
        parseF fuel (.member acc)
            (strBody k ++ 34 :: 58 :: 32 :: (printValue v ++ (printKvsRest t ++ rest))) =
          some (.pydict (acc ++ jsonifyKvs ((k, v) :: t)), rest)) ∧
      (∀ t acc rest, wfKvsB t = true →
        accFreshB (acc.map Prod.fst) t = true → needT t ≤ fuel → restOk rest = true →
        parseF fuel (.membersTail acc) (printKvsRest t ++ rest) =
          some (.pydict (acc ++ jsonifyKvs t), rest)) := by
  intro fuel
  induction fuel with
  | zero =>
    refine ⟨?_, ?_, ?_, ?_⟩
    · intro v _ _ _ hne _ _
      exact absurd hne (by have := needV_pos v; omega)
    · intro xs _ _ _ hne _
      exact absurd hne (by have := needA_pos xs; omega)
    · intro _ v t _ _ _ _ _ hne _
      exact absurd hne (by omega)
    · intro t _ _ _ _ hne _
      exact absurd hne (by have := needT_pos t; omega)
  | succ fuel ih =>
    obtain ⟨ihV, ihA, ihM, ihT⟩ := ih
    refine ⟨?_, ?_, ?_, ?_⟩
    · -- value position
      intro v pre rest hwf hne hpre hrest
      rw [parseF_value_skip, skipWs_ws_prefix pre _ hpre, skipWs_printValue]
      cases v with
      | pynone =>
        rw [show printValue .pynone ++ rest = 110 :: 117 :: 108 :: 108 :: rest by
          simp [printValue]]
        rw [parseF_null]
        simp [jsonify]
      | pybool b =>
        cases b with
        | true =>
          rw [show printValue (.pybool true) ++ rest = 116 :: 114 :: 117 :: 101 :: rest by
            simp [printValue]]
          rw [parseF_true]
          simp [jsonify]
        | false =>
          rw [show printValue (.pybool false) ++ rest =
              102 :: 97 :: 108 :: 115 :: 101 :: rest by simp [printValue]]
          rw [parseF_false]
          simp [jsonify]
      | pyint n =>
        by_cases hn : n < 0
        · obtain ⟨d, t, hdt, hd1, hd2⟩ := printNat_cons n.natAbs
          have htd : takeDigits (printNat n.natAbs ++ rest) = (printNat n.natAbs, rest) :=
            takeDigits_split _ _ (printNat_digits _) (restOk_headNotDigit rest hrest)
          rw [show printValue (.pyint n) ++ rest = 45 :: (printNat n.natAbs ++ rest) by
            simp [printValue, printInt, hn]]
          rw [parseF_neg_int fuel _ d t rest (htd.trans (by rw [hdt]))
            (restOk_numCont rest hrest)]
          rw [← hdt, digitsToNat_printNat]
          have hjn : jsonify (.pyint n) = .pyint n := by simp [jsonify]
          rw [hjn]
          have hna : (-(n.natAbs : Int)) = n := by
            rcases Int.natAbs_eq n with h3 | h3 <;> omega
          rw [hna]
        · obtain ⟨d, t, hdt, hd1, hd2⟩ := printNat_cons n.toNat
          have htd : takeDigits (printNat n.toNat ++ rest) = (printNat n.toNat, rest) :=
            takeDigits_split _ _ (printNat_digits _) (restOk_headNotDigit rest hrest)
          have h2 : takeDigits (d :: (t ++ rest)) = (printNat n.toNat, rest) := by
            rw [← List.cons_append, ← hdt]
            exact htd
          rw [show printValue (.pyint n) ++ rest = d :: (t ++ rest) by
            simp [printValue, printInt, hn, hdt]]
          rw [parseF_nonneg_int fuel d (t ++ rest) (printNat n.toNat) rest hd1 hd2 h2
            (restOk_numCont rest hrest)]
          rw [digitsToNat_printNat]
          simp [jsonify]
          omega
      | pystr s =>
        have hsc : ∀ c ∈ s, scalarB c = true := by
          simp only [wfB] at hwf
          simpa [List.all_eq_true] using hwf
        rw [show printValue (.pystr s) ++ rest = 34 :: (strBody s ++ 34 :: rest) by
          simp [printValue]]
        rw [parseF_string]
        rw [parseStringRest_strBody s _ rest le_rfl hsc]
        simp [jsonify]
      | pylist xs =>
        cases xs with
        | nil =>
          rw [show printValue (.pylist []) ++ rest = 91 :: (93 :: rest) by
            simp [printValue, printArr]]
          rw [parseF_empty_array fuel _ rest (skipWs_not_ws _ (by decide))]
          simp [jsonify, jsonifyList]
        | cons x t =>
          simp only [wfB, wfListB, Bool.and_eq_true] at hwf
          obtain ⟨hwx, hwt⟩ := hwf
          have hfx : needV x ≤ fuel := by simp [needV] at hne; omega
          have hft : needA t ≤ fuel := by simp [needV] at hne; omega
          obtain ⟨cx, tx, hcx, hwsx, hne93, _⟩ := printValue_head x
          have hv : parseF fuel .value (cx :: (tx ++ (printListRest t ++ rest))) =
              some (jsonify x, printListRest t ++ rest) := by
            have h := ihV x [] (printListRest t ++ rest) hwx hfx (by simp)
              (restOk_printListRest t rest)
            rw [List.nil_append, hcx, List.cons_append] at h
            exact h
          rw [show printValue (.pylist (x :: t)) ++ rest =
              91 :: (printValue x ++ (printListRest t ++ rest)) by
            simp [printValue, printArr]]
          rw [parseF_array fuel _ cx (tx ++ (printListRest t ++ rest))
            (printListRest t ++ rest) (jsonify x)
            (by rw [hcx, List.cons_append]; exact skipWs_not_ws _ hwsx)
            hne93 hv]
          rw [ihA t [jsonify x] rest hwt hft hrest]
          simp [jsonify, jsonifyList]
      | pytuple xs =>
        cases xs with
        | nil =>
          rw [show printValue (.pytuple []) ++ rest = 91 :: (93 :: rest) by
            simp [printValue, printArr]]
          rw [parseF_empty_array fuel _ rest (skipWs_not_ws _ (by decide))]
          simp [jsonify, jsonifyList]
        | cons x t =>
          simp only [wfB, wfListB, Bool.and_eq_true] at hwf
          obtain ⟨hwx, hwt⟩ := hwf
          have hfx : needV x ≤ fuel := by simp [needV] at hne; omega
          have hft : needA t ≤ fuel := by simp [needV] at hne; omega
          obtain ⟨cx, tx, hcx, hwsx, hne93, _⟩ := printValue_head x
          have hv : parseF fuel .value (cx :: (tx ++ (printListRest t ++ rest))) =
              some (jsonify x, printListRest t ++ rest) := by
            have h := ihV x [] (printListRest t ++ rest) hwx hfx (by simp)
              (restOk_printListRest t rest)
            rw [List.nil_append, hcx, List.cons_append] at h
            exact h
          rw [show printValue (.pytuple (x :: t)) ++ rest =
              91 :: (printValue x ++ (printListRest t ++ rest)) by
            simp [printValue, printArr]]
          rw [parseF_array fuel _ cx (tx ++ (printListRest t ++ rest))
            (printListRest t ++ rest) (jsonify x)
            (by rw [hcx, List.cons_append]; exact skipWs_not_ws _ hwsx)
            hne93 hv]
          rw [ihA t [jsonify x] rest hwt hft hrest]
          simp [jsonify, jsonifyList]
      | pydict kvs =>
        cases kvs with
        | nil =>
          rw [show printValue (.pydict []) ++ rest = 123 :: (125 :: rest) by
            simp [printValue, printObj]]
          rw [parseF_empty_obj fuel _ rest (skipWs_not_ws _ (by decide))]
          simp [jsonify, jsonifyKvs]
        | cons kv t =>
          obtain ⟨k, v2⟩ := kv
          simp only [wfB, Bool.and_eq_true] at hwf
          obtain ⟨hfr, hwkvs⟩ := hwf
          simp only [wfKvsB, Bool.and_eq_true] at hwkvs
          obtain ⟨⟨hk0, hv0⟩, ht0⟩ := hwkvs
          have hfuel : 1 + needV v2 + needT t ≤ fuel := by
            simp [needV] at hne
            omega
          rw [show printValue (.pydict ((k, v2) :: t)) ++ rest =
              123 :: (34 :: (strBody k ++
                34 :: 58 :: 32 :: (printValue v2 ++ (printKvsRest t ++ rest)))) by
            simp [printValue, printObj]]
          rw [parseF_obj fuel _ _ (skipWs_not_ws _ (by decide))]
          rw [ihM k v2 t [] rest (by simpa [List.all_eq_true] using hk0) hv0 ht0 hfr
            hfuel hrest]
          simp [jsonify]
    · -- array tail position
      intro xs acc rest hwf hne hrest
      cases xs with
      | nil =>
        rw [show printListRest [] ++ rest = 93 :: rest by simp [printListRest]]
        rw [parseF_arrayTail_close]
        simp [jsonifyList]
      | cons x t =>
        simp only [wfListB, Bool.and_eq_true] at hwf
        obtain ⟨hwx, hwt⟩ := hwf
        have hfx : needV x ≤ fuel := by simp [needA] at hne; omega
        have hft : needA t ≤ fuel := by simp [needA] at hne; omega
        have hv := ihV x [32] (printListRest t ++ rest) hwx hfx (by decide)
          (restOk_printListRest t rest)
        simp only [List.cons_append, List.nil_append] at hv
        rw [show printListRest (x :: t) ++ rest =
            44 :: (32 :: (printValue x ++ (printListRest t ++ rest))) by
          simp [printListRest]]
        rw [parseF_arrayTail_comma fuel acc _ _ (jsonify x) hv]
        rw [ihA t (acc ++ [jsonify x]) rest hwt hft hrest]
        simp [jsonifyList]
    · -- member position
      intro k v t acc rest hk hv hwt hfresh hne hrest
      have hps := parseStringRest_strBody k
        (strBody k ++ 34 :: 58 :: 32 :: (printValue v ++ (printKvsRest t ++ rest))).length
        (58 :: 32 :: (printValue v ++ (printKvsRest t ++ rest))) le_rfl hk
      simp only [accFreshB, Bool.and_eq_true] at hfresh
      have hfr1 : keyMem k (acc.map Prod.fst) = false := by
        simpa using hfresh.1
      have hfr2 : accFreshB (acc.map Prod.fst ++ [k]) t = true := hfresh.2
      have hfv : needV v ≤ fuel := by omega
      have hfT : needT t ≤ fuel := by omega
      have hval := ihV v [32] (printKvsRest t ++ rest) hv hfv (by decide)
        (restOk_printKvsRest t rest)
      simp only [List.cons_append, List.nil_append] at hval
      rw [parseF_member_step fuel acc _ k
        (58 :: 32 :: (printValue v ++ (printKvsRest t ++ rest)))
        (32 :: (printValue v ++ (printKvsRest t ++ rest)))
        (printKvsRest t ++ rest) (jsonify v) hps (skipWs_not_ws _ (by decide)) hval]
      rw [upsert_fresh acc k (jsonify v) hfr1]
      rw [ihT t (acc ++ [(k, jsonify v)]) rest hwt (by simpa using hfr2) hfT hrest]
      simp [jsonifyKvs]
    · -- members tail position
      intro t acc rest hwt hfresh hne hrest
      cases t with
      | nil =>
        rw [show printKvsRest [] ++ rest = 125 :: rest by simp [printKvsRest]]
        rw [parseF_membersTail_close]
        simp [jsonifyKvs]
      | cons kv t2 =>
        obtain ⟨k, v⟩ := kv
        simp only [wfKvsB, Bool.and_eq_true] at hwt
        obtain ⟨⟨hk0, hv0⟩, ht0⟩ := hwt
        have hfuel : 1 + needV v + needT t2 ≤ fuel := by
          simp [needT] at hne
          omega
        rw [show printKvsRest ((k, v) :: t2) ++ rest =
            44 :: (32 :: 34 :: (strBody k ++
              34 :: 58 :: 32 :: (printValue v ++ (printKvsRest t2 ++ rest)))) by
          simp [printKvsRest]]
        rw [parseF_membersTail_comma fuel acc
          (32 :: 34 :: (strBody k ++
            34 :: 58 :: 32 :: (printValue v ++ (printKvsRest t2 ++ rest))))
          (strBody k ++ 34 :: 58 :: 32 :: (printValue v ++ (printKvsRest t2 ++ rest)))
          (by simp [skipWs, isWs])]
        rw [ihM k v t2 acc rest (by simpa [List.all_eq_true] using hk0) hv0 ht0 hfresh
          hfuel hrest]

/-! ## Fuel bounds and ASCII safety of the printer -/

mutual

theorem needV_le_len (v : PyObj) : needV v ≤ (printValue v).length := by
  cases v with
  | pynone => simp [needV, printValue]
  | pybool b => cases b <;> simp [needV, printValue]
  | pyint n =>
    by_cases hn : n < 0
    · obtain ⟨d, t, hdt, _, _⟩ := printNat_cons n.natAbs
      simp [needV, printValue, printInt, hn, hdt]
    · obtain ⟨d, t, hdt, _, _⟩ := printNat_cons n.toNat
      simp [needV, printValue, printInt, hn, hdt]
  | pystr s => simp [needV, printValue]
  | pylist xs =>
    cases xs with
    | nil => simp [needV, printValue, printArr]
    | cons x t =>
      have h1 := needV_le_len x
      have h2 := needA_le_len t
      simp [needV, printValue, printArr]
      omega
  | pytuple xs =>
    cases xs with
    | nil => simp [needV, printValue, printArr]
    | cons x t =>
      have h1 := needV_le_len x
      have h2 := needA_le_len t
      simp [needV, printValue, printArr]
      omega
  | pydict kvs =>
    cases kvs with
    | nil => simp [needV, printValue, printObj]
    | cons kv t =>
      obtain ⟨k, v2⟩ := kv
      have h1 := needV_le_len v2
      have h2 := needT_le_len t
      simp [needV, printValue, printObj]
      omega

theorem needA_le_len (xs : List PyObj) : needA xs ≤ (printListRest xs).length := by
  cases xs with
  | nil => simp [needA, printListRest]
  | cons x t =>
    have h1 := needV_le_len x
    have h2 := needA_le_len t
    simp [needA, printListRest]
    omega

theorem needT_le_len (t : List (List Nat × PyObj)) :
    needT t ≤ (printKvsRest t).length := by
  cases t with
  | nil => simp [needT, printKvsRest]
  | cons kv t2 =>
    obtain ⟨k, v⟩ := kv
    have h1 := needV_le_len v
    have h2 := needT_le_len t2
    simp [needT, printKvsRest]
    omega

end

theorem hexDig_lt (d : Nat) : hexDig (d % 16) < 128 := by
  unfold hexDig
  have : d % 16 < 16 := Nat.mod_lt _ (by omega)
  split <;> omega

theorem hex4_ascii (n : Nat) : ∀ x ∈ hex4 n, x < 128 := by
  intro x hx
  simp [hex4] at hx
  rcases hx with h | h | h | h <;> (subst h; exact hexDig_lt _)

theorem escapeChar_ascii (c : Nat) : ∀ x ∈ escapeChar c, x < 128 := by
  intro x hx
  by_cases h1 : c = 34
  · subst h1; norm_num [escapeChar] at hx; omega
  · by_cases h2 : c = 92
    · subst h2; norm_num [escapeChar] at hx; omega
    · by_cases h3 : c = 8
      · subst h3; norm_num [escapeChar] at hx; omega
      · by_cases h4 : c = 9
        · subst h4; norm_num [escapeChar] at hx; omega
        · by_cases h5 : c = 10
          · subst h5; norm_num [escapeChar] at hx; omega
          · by_cases h6 : c = 12
            · subst h6; norm_num [escapeChar] at hx; omega
            · by_cases h7 : c = 13
              · subst h7; norm_num [escapeChar] at hx; omega
              · by_cases h8 : c < 32
                · rw [show escapeChar c = 92 :: 117 :: hex4 c by
                    unfold escapeChar
                    rw [if_neg h1, if_neg h2, if_neg h3, if_neg h4, if_neg h5,
                      if_neg h6, if_neg h7, if_pos h8]] at hx
                  simp only [List.mem_cons] at hx
                  rcases hx with rfl | rfl | h
                  · omega
                  · omega
                  · exact hex4_ascii _ _ h
                · by_cases h9 : c < 127
                  · rw [show escapeChar c = [c] by
                      unfold escapeChar
                      rw [if_neg h1, if_neg h2, if_neg h3, if_neg h4, if_neg h5,
                        if_neg h6, if_neg h7, if_neg h8, if_pos h9]] at hx
                    simp at hx
                    omega
                  · by_cases h10 : c < 65536
                    · rw [show escapeChar c = 92 :: 117 :: hex4 c by
                        unfold escapeChar
                        rw [if_neg h1, if_neg h2, if_neg h3, if_neg h4, if_neg h5,
                          if_neg h6, if_neg h7, if_neg h8, if_neg h9, if_pos h10]] at hx
                      simp only [List.mem_cons] at hx
                      rcases hx with rfl | rfl | h
                      · omega
                      · omega
                      · exact hex4_ascii _ _ h
                    · rw [show escapeChar c =
                          92 :: 117 :: hex4 (55296 + (c - 65536) / 1024) ++
                            (92 :: 117 :: hex4 (56320 + (c - 65536) % 1024)) by
                        unfold escapeChar
                        rw [if_neg h1, if_neg h2, if_neg h3, if_neg h4, if_neg h5,
                          if_neg h6, if_neg h7, if_neg h8, if_neg h9, if_neg h10]] at hx
                      simp only [List.cons_append, List.mem_cons,
                        List.mem_append] at hx
                      rcases hx with rfl | rfl | h | rfl | rfl | h
                      · omega
                      · omega
                      · exact hex4_ascii _ _ h
                      · omega
                      · omega
                      · exact hex4_ascii _ _ h

theorem strBody_ascii (s : List Nat) : ∀ c ∈ strBody s, c < 128 := by
  induction s with
  | nil => intro c hc; simp [strBody] at hc
  | cons c0 s2 ih =>
    intro c hc
    rw [strBody_cons] at hc
    rcases List.mem_append.1 hc with h | h
    · exact escapeChar_ascii c0 c h
    · exact ih c h

theorem printNat_ascii (n : Nat) : ∀ c ∈ printNat n, c < 128 := by
  intro c hc
  have := printNat_digits n c hc
  simp [isDigit] at this
  omega

mutual

theorem printValue_ascii (v : PyObj) : ∀ c ∈ printValue v, c < 128 := by
  cases v with
  | pynone => intro c hc; simp [printValue] at hc; omega
  | pybool b =>
    cases b with
    | true => intro c hc; simp [printValue] at hc; omega
    | false => intro c hc; simp [printValue] at hc; omega
  | pyint n =>
    intro c hc
    by_cases hn : n < 0
    · simp only [printValue, printInt, if_pos hn, List.mem_cons] at hc
      rcases hc with rfl | hc
      · omega
      · exact printNat_ascii _ c hc
    · simp only [printValue, printInt, if_neg hn] at hc
      exact printNat_ascii _ c hc
  | pystr s =>
    intro c hc
    simp only [printValue, List.mem_cons, List.mem_append] at hc
    rcases hc with rfl | hc | hc
    · omega
    · exact strBody_ascii s c hc
    · simp at hc; omega
  | pylist xs =>
    cases xs with
    | nil => intro c hc; simp [printValue, printArr] at hc; omega
    | cons x t =>
      intro c hc
      simp only [printValue, printArr, List.mem_cons, List.mem_append] at hc
      rcases hc with rfl | hc | hc
      · omega
      · exact printValue_ascii x c hc
      · exact printListRest_ascii t c hc
  | pytuple xs =>
    cases xs with
    | nil => intro c hc; simp [printValue, printArr] at hc; omega
    | cons x t =>
      intro c hc
      simp only [printValue, printArr, List.mem_cons, List.mem_append] at hc
      rcases hc with rfl | hc | hc
      · omega
      · exact printValue_ascii x c hc
      · exact printListRest_ascii t c hc
  | pydict kvs =>
    cases kvs with
    | nil => intro c hc; simp [printValue, printObj] at hc; omega
    | cons kv t =>
      obtain ⟨k, v2⟩ := kv
      intro c hc
      simp only [printValue, printObj, List.mem_cons, List.mem_append] at hc
      rcases hc with rfl | rfl | hc | rfl | rfl | rfl | hc | hc
      · omega
      · omega
      · exact strBody_ascii k c hc
      · omega
      · omega
      · omega
      · exact printValue_ascii v2 c hc
      · exact printKvsRest_ascii t c hc

theorem printListRest_ascii (xs : List PyObj) : ∀ c ∈ printListRest xs, c < 128 := by
  cases xs with
  | nil => intro c hc; simp [printListRest] at hc; omega
  | cons x t =>
    intro c hc
    simp only [printListRest, List.mem_cons, List.mem_append] at hc
    rcases hc with rfl | rfl | hc | hc
    · omega
    · omega
    · exact printValue_ascii x c hc
    · exact printListRest_ascii t c hc

theorem printKvsRest_ascii (t : List (List Nat × PyObj)) :
    ∀ c ∈ printKvsRest t, c < 128 := by
  cases t with
  | nil => intro c hc; simp [printKvsRest] at hc; omega
  | cons kv t2 =>
    obtain ⟨k, v⟩ := kv
    intro c hc
    simp only [printKvsRest, List.mem_cons, List.mem_append] at hc
    rcases hc with rfl | rfl | rfl | hc | rfl | rfl | rfl | hc | hc
    · omega
    · omega
    · omega
    · exact strBody_ascii k c hc
    · omega
    · omega
    · omega
    · exact printValue_ascii v c hc
    · exact printKvsRest_ascii t2 c hc

end

/-! ## The codec round trip -/

theorem asciiEncode_print (v : PyObj) :
    asciiEncode (printValue v) = some (printValue v) := by
  unfold asciiEncode
  rw [if_pos]
  simp only [List.all_eq_true, decide_eq_true_eq]
  exact printValue_ascii v

theorem asciiDecode_print (v : PyObj) :
    asciiDecode (printValue v) = some (printValue v) := by
  unfold asciiDecode
  rw [if_pos]
  simp only [List.all_eq_true, decide_eq_true_eq]
  exact printValue_ascii v

theorem jsonLoads_print (v : PyObj) (hwf : wfB v = true) :
    jsonLoads (printValue v) = some (jsonify v) := by
  have h := (parseF_print ((printValue v).length + 1)).1 v [] [] hwf
    (by have := needV_le_len v; omega) (by simp) rfl
  simp only [List.nil_append, List.append_nil] at h
  unfold jsonLoads
  rw [h]
  simp [skipWs]

/-! ## Receive-loop helper lemmas -/

theorem clientReceiveGo_skip (addr : String) (rid : Option (List Nat))
    (t : Option Nat) (pre l : List CFrame)
    (h : ∀ g ∈ pre, respMatches g rid = false) :
    clientReceiveGo addr rid t (pre ++ l) = clientReceiveGo addr rid t l := by
  induction pre with
  | nil => rfl
  | cons g pre2 ih =>
    have hg : respMatches g rid = false := h g (by simp)
    simp only [List.cons_append, clientReceiveGo, hg]
    simp only [Bool.false_eq_true, if_false]
    exact ih (fun x hx => h x (by simp [hx]))

theorem clientReceiveGo_match (addr : String) (rid : Option (List Nat))
    (t : Option Nat) (f : CFrame) (rest : List CFrame) (p : PyObj)
    (hm : respMatches f rid = true) (hd : decodeMsg f.payload = some p) :
    clientReceiveGo addr rid t (f :: rest) = (.ok p, rest) := by
  simp [clientReceiveGo, hm, hd]

theorem clientReceiveGo_timeout (addr : String) (rid : Option (List Nat))
    (tm : Nat) (frames : List CFrame)
    (h : ∀ g ∈ frames, respMatches g rid = false) :
    clientReceiveGo addr rid (some tm) frames = (.timeoutExc addr rid, []) := by
  induction frames with
  | nil => rfl
  | cons g rest ih =>
    have hg : respMatches g rid = false := h g (by simp)
    simp only [clientReceiveGo, hg]
    simp only [Bool.false_eq_true, if_false]
    exact ih (fun x hx => h x (by simp [hx]))

theorem respMatches_some_of_ne (g : CFrame) (rid : List Nat)
    (h : g.respId ≠ rid) : respMatches g (some rid) = false := by
  simp [respMatches, h]

/-- C3: with an explicit request id, `client_receive` skips every frame whose
response id differs and returns the decoded payload of the frame whose
response id matches, no matter how many non-matching frames precede it;
with `req_id = None` it returns the decoded payload of the first available
frame. -/
theorem client_receive_matches_request_id :
    (∀ (reg : List String) (addr : String) (rid : List Nat)
        (pre : List CFrame) (f : CFrame) (post : List CFrame)
        (t : Option Nat) (p : PyObj),
      addr ∈ reg → (∀ g ∈ pre, g.respId ≠ rid) → f.respId = rid →
      decodeMsg f.payload = some p →
      client_receive reg addr (some rid) t (pre ++ f :: post) = (.ok p, post)) ∧
    (∀ (reg : List String) (addr : String) (f : CFrame) (rest : List CFrame)
        (t : Option Nat) (p : PyObj),
      addr ∈ reg → decodeMsg f.payload = some p →
      client_receive reg addr none t (f :: rest) = (.ok p, rest)) := by
  constructor
  · intro reg addr rid pre f post t p hreg hpre hf hd
    unfold client_receive
    rw [if_pos hreg]
    rw [clientReceiveGo_skip addr (some rid) t pre (f :: post)
      (fun g hg => respMatches_some_of_ne g rid (hpre g hg))]
    exact clientReceiveGo_match addr (some rid) t f post p (by simp [respMatches, hf]) hd
  · intro reg addr f rest t p hreg hd
    unfold client_receive
    rw [if_pos hreg]
    exact clientReceiveGo_match addr none t f rest p (by simp [respMatches]) hd

/-- Witness for C3 at concrete inputs: a non-matching frame with response id
`[1]` arrives before the matching frame with response id `[2]` whose payload
decodes to the integer 1; the matching payload is returned and only the
frames after it remain.  The second part receives with no request id. -/
theorem client_receive_matches_request_id_witness :
    ("srv" ∈ ["srv"]) ∧
    (∀ g ∈ [CFrame.mk [1] [49]], g.respId ≠ [2]) ∧
    (CFrame.mk [2] [49]).respId = [2] ∧
    decodeMsg (CFrame.mk [2] [49]).payload = some (.pyint 1) ∧
    client_receive ["srv"] "srv" (some [2]) (some 5)
      ([CFrame.mk [1] [49]] ++ CFrame.mk [2] [49] :: []) = (.ok (.pyint 1), []) ∧
    client_receive ["srv"] "srv" none none [CFrame.mk [3] [49]] =
      (.ok (.pyint 1), []) := by
  refine ⟨by simp, by decide, rfl, rfl, ?_, ?_⟩
  · exact client_receive_matches_request_id.1 ["srv"] "srv" [2]
      [CFrame.mk [1] [49]] (CFrame.mk [2] [49]) [] (some 5) (.pyint 1)
      (by simp) (by decide) rfl rfl
  · exact client_receive_matches_request_id.2 ["srv"] "srv"
      (CFrame.mk [3] [49]) [] none (.pyint 1) (by simp) rfl

/-- C10: during a `client_receive` with an explicit request id, every frame
with a different response id is consumed off the socket and discarded: after
the call only the frames past the matching one remain, and a later receive
for the id of a discarded frame (with no further copy on the socket) times
out instead of seeing it. -/
theorem client_receive_drops_nonmatching_frames :
    ∀ (reg : List String) (addr : String) (rid : List Nat)
      (pre : List CFrame) (f : CFrame) (post : List CFrame)
      (t : Option Nat) (p : PyObj),
      addr ∈ reg → (∀ g ∈ pre, g.respId ≠ rid) → f.respId = rid →
      decodeMsg f.payload = some p →
      (client_receive reg addr (some rid) t (pre ++ f :: post)).2 = post ∧
      (∀ g ∈ pre, g.respId ∉ post.map CFrame.respId →
        ∀ tm : Nat, (client_receive reg addr (some g.respId) (some tm) post).1 =
          .timeoutExc addr (some g.respId)) := by
  intro reg addr rid pre f post t p hreg hpre hf hd
  constructor
  · unfold client_receive
    rw [if_pos hreg]
    rw [clientReceiveGo_skip addr (some rid) t pre (f :: post)
      (fun g hg => respMatches_some_of_ne g rid (hpre g hg))]
    rw [clientReceiveGo_match addr (some rid) t f post p (by simp [respMatches, hf]) hd]
  · intro g _ hgpost tm
    unfold client_receive
    rw [if_pos hreg]
    rw [clientReceiveGo_timeout addr (some g.respId) tm post
      (fun x hx => respMatches_some_of_ne x g.respId
        (fun he => hgpost (by rw [← he]; exact List.mem_map_of_mem _ hx)))]

/-- Witness for C10 at concrete inputs: the non-matching frame with response
id `[1]` is consumed while waiting for id `[2]`; afterwards the socket is
empty and a later 5 ms receive for id `[1]` times out. -/
theorem client_receive_drops_nonmatching_frames_witness :
    ("srv" ∈ ["srv"]) ∧
    (∀ g ∈ [CFrame.mk [1] [49]], g.respId ≠ [2]) ∧
    (CFrame.mk [2] [49]).respId = [2] ∧
    decodeMsg (CFrame.mk [2] [49]).payload = some (.pyint 1) ∧
    (client_receive ["srv"] "srv" (some [2]) (some 5)
      ([CFrame.mk [1] [49]] ++ CFrame.mk [2] [49] :: [])).2 = [] ∧
    (client_receive ["srv"] "srv" (some [1]) (some 5) []).1 =
      .timeoutExc "srv" (some [1]) := by
  have h := client_receive_drops_nonmatching_frames ["srv"] "srv" [2]
    [CFrame.mk [1] [49]] (CFrame.mk [2] [49]) [] (some 5) (.pyint 1)
    (by simp) (by decide) rfl rfl
  refine ⟨by simp, by decide, rfl, rfl, h.1, ?_⟩
  have h2 := h.2 (CFrame.mk [1] [49]) (by simp) (by simp) 5
  simpa using h2

/-- C2: for every four-part frame `[sender][destination][emptyDelimiter][payload]`
(addresses ASCII-decodable for the log line, delimiter empty), `mediate`
sends exactly one frame with the first two parts swapped and the delimiter
and the payload bytes forwarded byte-for-byte, without inspecting the
payload. -/
theorem mediate_step_swaps_addresses :
    ∀ f : RelayFrame, f.delim = [] →
      f.sender.all (fun c => c < 128) = true →
      f.dest.all (fun c => c < 128) = true →
      mediate_step f = some ⟨f.dest, f.sender, f.delim, f.payload⟩ := by
  intro f hdelim hs hd
  unfold mediate_step
  rw [show asciiDecode f.sender = some f.sender by unfold asciiDecode; rw [if_pos hs]]
  rw [show asciiDecode f.dest = some f.dest by unfold asciiDecode; rw [if_pos hd]]
  rw [hdelim]

/-- Witness for C2 at a concrete frame: addresses `a` and `b`, empty
delimiter, and a payload containing a non-ASCII byte (the relay never
decodes the payload). -/
theorem mediate_step_swaps_addresses_witness :
    (RelayFrame.mk [97] [98] [] [255, 0]).delim = [] ∧
    ([97] : List Nat).all (fun c => c < 128) = true ∧
    ([98] : List Nat).all (fun c => c < 128) = true ∧
    mediate_step (RelayFrame.mk [97] [98] [] [255, 0]) =
      some ⟨[98], [97], [], [255, 0]⟩ := by
  refine ⟨rfl, by decide, by decide, ?_⟩
  exact mediate_step_swaps_addresses (RelayFrame.mk [97] [98] [] [255, 0])
    rfl (by decide) (by decide)

theorem insertKey_mem (l : List String) (a : String) : a ∈ insertKey l a := by
  unfold insertKey
  by_cases h : a ∈ l
  · rw [if_pos h]; exact h
  · rw [if_neg h]; simp

theorem insertKey_nodup (l : List String) (a : String) (h : l.Nodup) :
    (insertKey l a).Nodup := by
  unfold insertKey
  by_cases hm : a ∈ l
  · rw [if_pos hm]; exact h
  · rw [if_neg hm]
    simp [List.nodup_append, h, hm]

theorem insertKey_count (l : List String) (a : String) (h : l.Nodup) :
    (insertKey l a).count a = 1 := by
  unfold insertKey
  by_cases hm : a ∈ l
  · rw [if_pos hm]
    have h1 : l.count a ≤ 1 := List.nodup_iff_count_le_one.1 h a
    have h2 : 0 < l.count a := List.count_pos_iff.2 hm
    omega
  · rw [if_neg hm]
    rw [List.count_append]
    have h0 : l.count a = 0 := List.count_eq_zero.2 hm
    simp [h0]

/-- C4: `register_connection` is all-or-nothing: on success exactly one
entry is stored under the address in the client-socket map (and the
health-check map); on any failure the maps are untouched.  In particular,
when nothing answers within the 100 ms handshake poll (`reply` yields
nothing), it returns failure with the state unchanged; and the handshake
timeout constant is 100 ms. -/
theorem register_connection_all_or_nothing :
    (∀ (reply : Nat → Option (List Nat)) (addr : String) (st : PeerState),
      ((register_connection reply addr st).1 = true →
        (register_connection reply addr st).2 =
          ⟨insertKey st.clientSockets addr, insertKey st.clientHcSockets addr⟩ ∧
        addr ∈ (register_connection reply addr st).2.clientSockets ∧
        (st.clientSockets.Nodup →
          (register_connection reply addr st).2.clientSockets.Nodup ∧
          (register_connection reply addr st).2.clientSockets.count addr = 1)) ∧
      ((register_connection reply addr st).1 = false →
        (register_connection reply addr st).2 = st)) ∧
    (∀ (addr : String) (st : PeerState),
      register_connection (fun _ => none) addr st = (false, st)) ∧
    handshake_timeout_ms = 100 := by
  refine ⟨?_, ?_, rfl⟩
  · intro reply addr st
    cases hr : reply handshake_timeout_ms with
    | none =>
      have hreg : register_connection reply addr st = (false, st) := by
        unfold register_connection
        rw [hr]
      rw [hreg]
      constructor
      · intro hok; simp at hok
      · intro _; rfl
    | some msg =>
      by_cases hmsg : msg = connectionConfirmed
      · have hreg : register_connection reply addr st =
            (true, ⟨insertKey st.clientSockets addr, insertKey st.clientHcSockets addr⟩) := by
          unfold register_connection
          rw [hr]
          simp [hmsg]
        rw [hreg]
        constructor
        · intro _
          refine ⟨rfl, insertKey_mem _ _, fun hnd => ⟨insertKey_nodup _ _ hnd,
            insertKey_count _ _ hnd⟩⟩
        · intro hok; simp at hok
      · have hreg : register_connection reply addr st = (false, st) := by
          unfold register_connection
          rw [hr]
          simp [hmsg]
        rw [hreg]
        constructor
        · intro hok; simp at hok
        · intro _; rfl
  · intro addr st
    rfl

/-- Witness for C4 at concrete inputs: a peer that never answers leaves the
maps unchanged, and a peer that answers `b"connection_confirmed"` stores the
address exactly once. -/
theorem register_connection_all_or_nothing_witness :
    register_connection (fun _ => none) "peer-x" ⟨[], []⟩ = (false, ⟨[], []⟩) ∧
    (register_connection (fun _ => some connectionConfirmed) "peer-x"
        ⟨["other"], ["other"]⟩).1 = true ∧
    (["other"] : List String).Nodup ∧
    (register_connection (fun _ => some connectionConfirmed) "peer-x"
        ⟨["other"], ["other"]⟩).2.clientSockets.count "peer-x" = 1 := by
  refine ⟨register_connection_all_or_nothing.2.1 "peer-x" ⟨[], []⟩, rfl,
    by simp, ?_⟩
  exact ((register_connection_all_or_nothing.1
    (fun _ => some connectionConfirmed) "peer-x" ⟨["other"], ["other"]⟩).1 rfl).2.2
    (by simp) |>.2

/-- C8: the dispatcher answers `b"confirm_connection"` with
`b"connection_confirmed"` and `b"check_connection"` with
`b"connection_alive"`, and neither control frame ever touches the message
queue; only non-control application frames are appended to the queue. -/
theorem server_loop_control_replies :
    (∀ (q : List (List Nat × PyObj)) (sender : List Nat),
      server_loop_step q sender confirmConnection =
        .ok ([(sender, connectionConfirmed)], q)) ∧
    (∀ (q : List (List Nat × PyObj)) (sender : List Nat),
      server_loop_step q sender checkConnection =
        .ok ([(sender, connectionAlive)], q)) ∧
    (∀ (q : List (List Nat × PyObj)) (sender m : List Nat)
        (reps : List (List Nat × List Nat)) (q2 : List (List Nat × PyObj)),
      server_loop_step q sender m = .ok (reps, q2) → q2 ≠ q →
      m ≠ confirmConnection ∧ m ≠ checkConnection) := by
  refine ⟨?_, ?_, ?_⟩
  · intro q sender
    simp [server_loop_step]
  · intro q sender
    have hne : checkConnection ≠ confirmConnection := by decide
    simp [server_loop_step, hne]
  · intro q sender m reps q2 hstep hq2
    constructor
    · intro hm
      subst hm
      simp [server_loop_step] at hstep
      exact hq2 hstep.2.symm
    · intro hm
      subst hm
      have hne : checkConnection ≠ confirmConnection := by decide
      simp [server_loop_step, hne] at hstep
      exact hq2 hstep.2.symm

/-- Witness for C8 at concrete inputs: both control frames are answered with
the expected reply and leave the queue unchanged, and a queued application
frame (`null`) is not a control frame. -/
theorem server_loop_control_replies_witness :
    server_loop_step [] [49] confirmConnection =
      .ok ([([49], connectionConfirmed)], []) ∧
    server_loop_step [] [49] checkConnection =
      .ok ([([49], connectionAlive)], []) ∧
    server_loop_step [] [49] [110, 117, 108, 108] =
      .ok ([], [([49], PyObj.pynone)]) ∧
    ([([49], PyObj.pynone)] : List (List Nat × PyObj)) ≠ [] ∧
    [110, 117, 108, 108] ≠ confirmConnection ∧
    [110, 117, 108, 108] ≠ checkConnection := by
  refine ⟨server_loop_control_replies.1 [] [49],
    server_loop_control_replies.2.1 [] [49], rfl, by simp, ?_⟩
  exact server_loop_control_replies.2.2 [] [49] [110, 117, 108, 108] []
    [([49], PyObj.pynone)] rfl (by simp)

theorem erase_append_self (i : List String) (addr : String) (h : addr ∉ i) :
    (i ++ [addr]).erase addr = i := by
  induction i with
  | nil => simp
  | cons x t ih =>
    have hx : ¬(x = addr) := fun he => h (by simp [he])
    have ht : addr ∉ t := fun he => h (by simp [he])
    simp only [List.cons_append, List.erase_cons]
    rw [if_neg (by simpa using fun he : x = addr => hx he)]
    rw [ih ht]

theorem healthRun_of_mem (j : List String) (addr : String) (m : Nat)
    (h : addr ∈ j) : healthRun j addr (List.replicate m false) = j := by
  induction m with
  | zero => rfl
  | succ m ih =>
    rw [List.replicate_succ]
    show healthRun (healthStep j addr false) addr (List.replicate m false) = j
    rw [show healthStep j addr false = j by simp [healthStep, h]]
    exact ih

theorem healthStep_false_of_mem (i : List String) (addr : String)
    (h : addr ∈ i) : healthStep i addr false = i := by
  simp [healthStep, h]

theorem healthRun_replicate_false (i : List String) (addr : String) (n : Nat)
    (hnm : addr ∉ i) (hn : 1 ≤ n) :
    healthRun i addr (List.replicate n false) = i ++ [addr] := by
  obtain ⟨m, rfl⟩ : ∃ m, n = m + 1 := ⟨n - 1, by omega⟩
  rw [List.replicate_succ]
  show healthRun (healthStep i addr false) addr (List.replicate m false) = i ++ [addr]
  rw [show healthStep i addr false = i ++ [addr] by simp [healthStep, hnm]]
  exact healthRun_of_mem _ addr m (by simp)

theorem healthRun_recover (i : List String) (addr : String) (n : Nat)
    (hnm : addr ∉ i) :
    healthRun i addr (List.replicate n false ++ [true]) = i := by
  unfold healthRun
  rw [List.foldl_append]
  show healthStep (healthRun i addr (List.replicate n false)) addr true = i
  cases n with
  | zero =>
    show healthStep i addr true = i
    simp [healthStep, hnm]
  | succ m =>
    rw [show healthRun i addr (List.replicate (m + 1) false) = i ++ [addr] by
      rw [List.replicate_succ]
      show healthRun (healthStep i addr false) addr (List.replicate m false) = i ++ [addr]
      rw [show healthStep i addr false = i ++ [addr] by simp [healthStep, hnm]]
      exact healthRun_of_mem _ addr m (by simp)]
    have hmem : addr ∈ i ++ [addr] := by simp
    simp only [healthStep, hmem, if_pos, if_true]
    exact erase_append_self i addr hnm

/-- Counterexample for C5 as stated: at the concrete inbound frames
`[(sender 1, 0xFF), (sender 2, confirm_connection)]` the dispatcher loop does
not drop the malformed frame and continue — the run aborts with the uncaught
decode exception (`.error`), so the following well-formed control frame is
never processed. -/
theorem server_loop_decode_failure_kills_loop :
    server_loop_run [] [([49], [255]), ([50], confirmConnection)] = .error () ∧
    (Except.error () :
        Except Unit (List (List Nat × List Nat) × List (List Nat × PyObj))) ≠
      .ok ([([50], connectionConfirmed)], []) := by
  constructor
  · rfl
  · simp

/-- C5 (amended): a frame whose payload fails to decode is never pushed onto
the queue, but the decode exception is not caught anywhere in `server_loop`:
the step raises and the dispatcher loop terminates, leaving all later frames
unprocessed. -/
theorem server_loop_malformed_frame_uncaught :
    ∀ (q : List (List Nat × PyObj)) (s m : List Nat)
      (rest : List (List Nat × List Nat)),
      server_decode m = none → m ≠ confirmConnection → m ≠ checkConnection →
      server_loop_run q ((s, m) :: rest) = .error () := by
  intro q s m rest hdec h1 h2
  have hstep : server_loop_step q s m = .error () := by
    unfold server_loop_step
    rw [if_neg h1, if_neg h2, hdec]
  simp [server_loop_run, hstep]

/-- Witness for C5 at concrete inputs: the byte `0xFF` is not
ASCII-decodable, is not a control frame, and kills the loop even with a
frame still pending. -/
theorem server_loop_malformed_frame_uncaught_witness :
    server_decode [255] = none ∧
    ([255] : List Nat) ≠ confirmConnection ∧
    ([255] : List Nat) ≠ checkConnection ∧
    server_loop_run [] [([49], [255]), ([50], confirmConnection)] = .error () := by
  refine ⟨rfl, by decide, by decide, ?_⟩
  exact server_loop_malformed_frame_uncaught [] [49] [255]
    [([50], confirmConnection)] rfl (by decide) (by decide)

theorem flushLoop_drain (q : List (List Nat × PyObj)) :
    flushLoop q (List.replicate q.length ()) = [] := by
  induction q with
  | nil => rfl
  | cons x qt ih =>
    simp only [List.length_cons, List.replicate_succ, flushLoop]
    exact ih

/-- C6: `flush_server_queue` as written iterates over the integer returned
by `qsize()` (`for _ in self.server_msg_queue.qsize():`), which raises
`TypeError` before any element is popped, and `except asyncio.QueueEmpty`
does not catch it — the call never returns normally and never drains
anything, for every queue state.  The intended `range(qsize())` loop (as the
docstring and the spec describe) would drain the queue completely. -/
theorem flush_server_queue_type_error :
    (∀ q : List (List Nat × PyObj), flush_server_queue q = .error .typeError) ∧
    (∀ q : List (List Nat × PyObj), flush_server_queue_intended q = .ok []) := by
  constructor
  · intro q
    rfl
  · intro q
    unfold flush_server_queue_intended pyForIn
    simp [Except.map, flushLoop_drain]

/-- Counterexample for C1 as stated: the tuple payload `(1,)` is serialized
as the JSON array `[1]` and decoded by `json.loads` as a Python list, so the
decoded payload is not equal to the sent payload. -/
theorem codec_roundtrip_tuple_counterexample :
    codec_roundtrip (.pytuple [.pyint 1]) = some (.pylist [.pyint 1]) ∧
    (some (PyObj.pylist [.pyint 1]) : Option PyObj) ≠
      some (PyObj.pytuple [.pyint 1]) := by
  constructor
  · have h1 : jsonDumps (.pytuple [.pyint 1]) = [91, 49, 93] := by
      norm_num [jsonDumps, printValue, printArr, printListRest, printInt,
        printNat, natCharsAux]
    unfold codec_roundtrip client_encode
    rw [h1]
    rfl
  · simp

/-- C1 (amended): for every well-formed payload (strings of Unicode scalar
values, dicts with distinct string keys), sending through
`client_transmit`'s codec and decoding with `server_receive`'s codec yields
exactly the payload with every tuple converted to a list (`jsonify`); on
tuple-free payloads this is the identity. -/
theorem codec_roundtrip_decodes_to_jsonify :
    ∀ message : PyObj, wfB message = true →
      codec_roundtrip message = some (jsonify message) := by
  intro m h
  unfold codec_roundtrip client_encode jsonDumps
  rw [asciiEncode_print]
  simp only [Option.some_bind]
  unfold server_decode
  rw [asciiDecode_print]
  simp only [Option.some_bind]
  exact jsonLoads_print m h

/-- Witness for C1 at a concrete payload exercising every modelled
constructor: a tuple containing a negative integer, a string, a nested list
with booleans and `None`, and a dict with two distinct keys. -/
theorem codec_roundtrip_decodes_to_jsonify_witness :
    wfB (.pytuple [.pyint (-5), .pystr [104, 105],
      .pylist [.pybool true, .pynone],
      .pydict [([97], .pyint 3), ([98], .pystr [])]]) = true ∧
    codec_roundtrip (.pytuple [.pyint (-5), .pystr [104, 105],
      .pylist [.pybool true, .pynone],
      .pydict [([97], .pyint 3), ([98], .pystr [])]]) =
      some (jsonify (.pytuple [.pyint (-5), .pystr [104, 105],
        .pylist [.pybool true, .pynone],
        .pydict [([97], .pyint 3), ([98], .pystr [])]])) := by
  have hwf : wfB (.pytuple [.pyint (-5), .pystr [104, 105],
      .pylist [.pybool true, .pynone],
      .pydict [([97], .pyint 3), ([98], .pystr [])]]) = true := by
    simp [wfB, wfListB, wfKvsB, accFreshB, keyMem, scalarB]
  exact ⟨hwf, codec_roundtrip_decodes_to_jsonify _ hwf⟩

/-! ## Per-poll timeout semantics of the receive loop (C7) -/

theorem clientReceiveTimedGo_none_no_timeout (addr : String)
    (rid : Option (List Nat)) (frames : List (Nat × CFrame)) :
    ∀ a r, (clientReceiveTimedGo addr rid none frames).1 ≠ .timeoutExc a r := by
  induction frames with
  | nil => intro a r; simp [clientReceiveTimedGo]
  | cons gf rest ih =>
    obtain ⟨gap, f⟩ := gf
    intro a r
    have hp : pollFails none gap = false := rfl
    by_cases hg : respMatches f rid = true
    · cases hd : decodeMsg f.payload with
      | none => simp [clientReceiveTimedGo, hp, hg, hd]
      | some p => simp [clientReceiveTimedGo, hp, hg, hd]
    · have hg2 : respMatches f rid = false := by simpa using hg
      simp only [clientReceiveTimedGo, hp, Bool.false_eq_true, if_false, hg2]
      exact ih a r

/-- Counterexample for C7 as stated: request id `[2]`, timeout 5 ms.  A
non-matching frame (response id `[1]`) arrives 4 ms into the first poll and
the only qualifying frame 4 ms into the second — 8 ms after the call began,
past the 5 ms deadline, so no qualifying frame arrives within the caller's
timeout.  Yet the call returns the decoded payload normally instead of
failing with the timeout error, because line 187 re-polls with the full
5 ms window after the non-matching frame. -/
theorem client_receive_overall_deadline_counterexample :
    client_receive_timed ["srv"] "srv" (some [2]) (some 5)
      [(4, CFrame.mk [1] [49]), (4, CFrame.mk [2] [49])] =
      (.ok (.pyint 1), []) ∧
    5 < 4 + 4 ∧
    (RecvOutcome.ok (.pyint 1) ≠ RecvOutcome.timeoutExc "srv" (some [2])) := by
  refine ⟨rfl, by omega, by simp⟩

/-- C7 (amended): the timeout bounds each poll for the next frame, not the
whole call.  With a finite timeout, the distinct timeout error carrying the
peer address and the request id is raised exactly when the next frame —
qualifying or not — fails to arrive within the window, in particular when no
frame arrives at all; a non-matching frame arriving within the window is
consumed and the full timeout restarts (the loop re-polls with the caller's
undiminished timeout); a qualifying frame arriving within its window is
returned normally however late in absolute time; with `timeout = None` the
wait is indefinite and a timeout error is never raised. -/
theorem client_receive_per_poll_timeout :
    (∀ (reg : List String) (addr : String) (rid : Option (List Nat)) (tm : Nat),
      addr ∈ reg →
      (client_receive_timed reg addr rid (some tm) []).1 = .timeoutExc addr rid) ∧
    (∀ (reg : List String) (addr : String) (rid : Option (List Nat)) (tm : Nat)
        (gap : Nat) (f : CFrame) (rest : List (Nat × CFrame)),
      addr ∈ reg → tm < gap →
      (client_receive_timed reg addr rid (some tm) ((gap, f) :: rest)).1 =
        .timeoutExc addr rid) ∧
    (∀ (reg : List String) (addr : String) (rid : Option (List Nat)) (tm : Nat)
        (gap : Nat) (f : CFrame) (rest : List (Nat × CFrame)),
      addr ∈ reg → gap ≤ tm → respMatches f rid = false →
      client_receive_timed reg addr rid (some tm) ((gap, f) :: rest) =
        client_receive_timed reg addr rid (some tm) rest) ∧
    (∀ (reg : List String) (addr : String) (rid : Option (List Nat)) (tm : Nat)
        (gap : Nat) (f : CFrame) (rest : List (Nat × CFrame)) (p : PyObj),
      addr ∈ reg → gap ≤ tm → respMatches f rid = true →
      decodeMsg f.payload = some p →
      client_receive_timed reg addr rid (some tm) ((gap, f) :: rest) =
        (.ok p, rest)) ∧
    (∀ (reg : List String) (addr : String) (rid : Option (List Nat))
        (frames : List (Nat × CFrame)) (a : String) (r : Option (List Nat)),
      (client_receive_timed reg addr rid none frames).1 ≠ .timeoutExc a r) := by
  refine ⟨?_, ?_, ?_, ?_, ?_⟩
  · intro reg addr rid tm hreg
    unfold client_receive_timed
    rw [if_pos hreg]
    rfl
  · intro reg addr rid tm gap f rest hreg hlate
    have hp : pollFails (some tm) gap = true := by
      simp [pollFails, hlate]
    unfold client_receive_timed
    rw [if_pos hreg]
    simp [clientReceiveTimedGo, hp]
  · intro reg addr rid tm gap f rest hreg hin hnm
    have hp : pollFails (some tm) gap = false := by
      simp [pollFails]; omega
    unfold client_receive_timed
    rw [if_pos hreg, if_pos hreg]
    simp only [clientReceiveTimedGo, hp, Bool.false_eq_true, if_false, hnm]
  · intro reg addr rid tm gap f rest p hreg hin hm hd
    have hp : pollFails (some tm) gap = false := by
      simp [pollFails]; omega
    unfold client_receive_timed
    rw [if_pos hreg]
    simp [clientReceiveTimedGo, hp, hm, hd]
  · intro reg addr rid frames a r
    unfold client_receive_timed
    by_cases hreg : addr ∈ reg
    · rw [if_pos hreg]
      exact clientReceiveTimedGo_none_no_timeout addr rid frames a r
    · rw [if_neg hreg]
      simp

/-- Witness for the amended C7 at concrete inputs: with a 5 ms timeout, no
frame at all and a first frame 6 ms away both raise the timeout error
carrying the address and request id `[2]`; a non-matching frame 4 ms away
is consumed and the call restarts with the full 5 ms window; a matching
frame 4 ms away is returned; an indefinite wait on a late frame never
raises the timeout error. -/
theorem client_receive_per_poll_timeout_witness :
    ("srv" ∈ ["srv"]) ∧ 5 < 6 ∧ 4 ≤ 5 ∧
    respMatches (CFrame.mk [1] [49]) (some [2]) = false ∧
    respMatches (CFrame.mk [2] [49]) (some [2]) = true ∧
    decodeMsg (CFrame.mk [2] [49]).payload = some (.pyint 1) ∧
    (client_receive_timed ["srv"] "srv" (some [2]) (some 5) []).1 =
      .timeoutExc "srv" (some [2]) ∧
    (client_receive_timed ["srv"] "srv" (some [2]) (some 5)
      [(6, CFrame.mk [2] [49])]).1 = .timeoutExc "srv" (some [2]) ∧
    client_receive_timed ["srv"] "srv" (some [2]) (some 5)
      ((4, CFrame.mk [1] [49]) :: [(4, CFrame.mk [2] [49])]) =
      client_receive_timed ["srv"] "srv" (some [2]) (some 5)
        [(4, CFrame.mk [2] [49])] ∧
    client_receive_timed ["srv"] "srv" (some [2]) (some 5)
      ((4, CFrame.mk [2] [49]) :: []) = (.ok (.pyint 1), []) ∧
    (client_receive_timed ["srv"] "srv" (some [2]) none
      [(6, CFrame.mk [2] [49])]).1 ≠ .timeoutExc "srv" (some [2]) := by
  refine ⟨by simp, by omega, by omega, by decide, by decide, rfl, ?_, ?_, ?_, ?_, ?_⟩
  · exact client_receive_per_poll_timeout.1 ["srv"] "srv" (some [2]) 5 (by simp)
  · exact client_receive_per_poll_timeout.2.1 ["srv"] "srv" (some [2]) 5 6
      (CFrame.mk [2] [49]) [] (by simp) (by omega)
  · exact client_receive_per_poll_timeout.2.2.1 ["srv"] "srv" (some [2]) 5 4
      (CFrame.mk [1] [49]) [(4, CFrame.mk [2] [49])] (by simp) (by omega) (by decide)
  · exact client_receive_per_poll_timeout.2.2.2.1 ["srv"] "srv" (some [2]) 5 4
      (CFrame.mk [2] [49]) [] (.pyint 1) (by simp) (by omega) (by decide) rfl
  · exact client_receive_per_poll_timeout.2.2.2.2 ["srv"] "srv" (some [2])
      [(6, CFrame.mk [2] [49])] "srv" (some [2])

/-! ## The health loop's error path (C9) -/

theorem healthRunE_ok (addr : String) :
    ∀ (ps : List ProbeOutcome) (i : List String),
      (∀ p ∈ ps, p ≠ ProbeOutcome.sendBlocked) →
      healthRunE i addr ps = .ok (healthRun i addr (ps.map probeBool)) := by
  intro ps
  induction ps with
  | nil => intro i h; rfl
  | cons p rest ih =>
    intro i h
    cases p with
    | reply =>
      show healthRunE (healthStep i addr true) addr rest =
        .ok (healthRun i addr (true :: rest.map probeBool))
      rw [ih _ (fun q hq => h q (by simp [hq]))]
      rfl
    | silent =>
      show healthRunE (healthStep i addr false) addr rest =
        .ok (healthRun i addr (false :: rest.map probeBool))
      rw [ih _ (fun q hq => h q (by simp [hq]))]
      rfl
    | sendBlocked => exact absurd rfl (h _ (by simp))

/-- Counterexample for C9 as stated ("the loop itself never raising to the
application"): at the concrete probe sequence whose first DONTWAIT send
cannot be queued — the pipe to the dead peer has reached its high-water
mark, so pyzmq raises `zmq.error.Again`, which nothing in dpt_module.py
186-203 catches — the loop aborts with the uncaught exception instead of
continuing. -/
theorem client_loop_send_blocked_counterexample :
    healthRunE [] "peer" [ProbeOutcome.sendBlocked] = .error () ∧
    (Except.error () : Except Unit (List String)) ≠ .ok [] := by
  exact ⟨rfl, by simp⟩

/-- C9 (amended): for completed probes the transition discipline holds — a
further failed probe on an already-interrupted address changes nothing, a
run of failed probes marks the address interrupted exactly once, and the
first successful probe after any run of failures removes it exactly once,
restoring the original list — but the loop is not exception-free: a probe
whose DONTWAIT send cannot be queued (dead peer, pipe at its high-water
mark) raises `zmq.Again`, which nothing in the loop catches, and the loop
dies. -/
theorem health_monitor_transitions_until_raise :
    (∀ (i : List String) (addr : String), addr ∈ i →
      healthStepE i addr .silent = .ok i) ∧
    (∀ (i : List String) (addr : String) (n : Nat), addr ∉ i → 1 ≤ n →
      healthRunE i addr (List.replicate n .silent) = .ok (i ++ [addr])) ∧
    (∀ (i : List String) (addr : String) (n : Nat), addr ∉ i →
      healthRunE i addr (List.replicate n .silent ++ [.reply]) = .ok i) ∧
    (∀ (i : List String) (addr : String) (rest : List ProbeOutcome),
      healthRunE i addr (.sendBlocked :: rest) = .error ()) := by
  refine ⟨?_, ?_, ?_, ?_⟩
  · intro i addr h
    show Except.ok (healthStep i addr false) = _
    rw [healthStep_false_of_mem i addr h]
  · intro i addr n hnm hn
    rw [healthRunE_ok addr _ i
      (fun p hp => by rw [List.eq_of_mem_replicate hp]; simp)]
    rw [List.map_replicate]
    rw [show probeBool .silent = false from rfl]
    rw [healthRun_replicate_false i addr n hnm hn]
  · intro i addr n hnm
    rw [healthRunE_ok addr _ i
      (fun p hp => by
        rcases List.mem_append.1 hp with h1 | h1
        · rw [List.eq_of_mem_replicate h1]; simp
        · rw [List.mem_singleton.1 h1]; simp)]
    rw [List.map_append, List.map_replicate]
    rw [show probeBool .silent = false from rfl,
      show List.map probeBool [ProbeOutcome.reply] = [true] from rfl]
    rw [healthRun_recover i addr n hnm]
  · intro i addr rest
    rfl

/-- Witness for the amended C9 at concrete inputs: starting from an empty
interrupted list, three silent probes for `peer` mark it interrupted once, a
further silent probe on the now-interrupted list changes nothing, the first
reply restores the empty list, and a blocked probe send kills the loop. -/
theorem health_monitor_transitions_until_raise_witness :
    ("peer" ∈ ["peer"]) ∧
    healthStepE ["peer"] "peer" .silent = .ok ["peer"] ∧
    ("peer" ∉ ([] : List String)) ∧ 1 ≤ 3 ∧
    healthRunE [] "peer" (List.replicate 3 .silent) = .ok ([] ++ ["peer"]) ∧
    healthRunE [] "peer" (List.replicate 3 .silent ++ [.reply]) = .ok [] ∧
    healthRunE [] "peer" (.sendBlocked :: []) = .error () := by
  refine ⟨by simp, ?_, by simp, by omega, ?_, ?_, ?_⟩
  · exact health_monitor_transitions_until_raise.1 ["peer"] "peer" (by simp)
  · exact health_monitor_transitions_until_raise.2.1 [] "peer" 3 (by simp) (by omega)
  · exact health_monitor_transitions_until_raise.2.2.1 [] "peer" 3 (by simp)
  · exact health_monitor_transitions_until_raise.2.2.2 [] "peer" []
